import Mathlib

/-!
# Appointment scheduling core of the healthtech server

A shallow embedding of the appointment routes of the Express/Mongoose server
(`server/src/routes/appointment.routes.js`, `server/src/routes/doctor.routes.js`,
`server/src/models/appointment.model.js`, `server/src/models/user.model.js`,
`server/src/routes/auth.routes.js`, `server/src/utils/validators.js`,
`server/src/middleware/auth.js`) and theorems about them.

Modelling conventions.

* The MongoDB collections are lists of documents; a handler is a function from
  the database to the database after the request together with the outcome of
  the request (`Except Err _`): the value sent with the success response, or the
  error passed to the error handler.
* An `ObjectId` is a natural number.  A request field that Mongoose casts to an
  id or to a date is `Cast.ok v` when the cast gives `v` and `Cast.fails` when it
  does not (a malformed id, `Invalid Date`).  A field that is missing from the
  request is `none`.  Scalar string fields are the string Mongoose casts them
  to; the empty string is the falsy string of JavaScript.
* Dates are milliseconds since the epoch (`Int`).
* `req.user`, the user that the `protect` middleware loaded, is an argument of
  each handler.  The `timestamps` (`createdAt`, `updatedAt`) are not modelled.
-/

namespace HealthTech

/-! ## Data model -/

abbrev ObjectId := Nat

/-- Result of casting a request value to a schema type. -/
inductive Cast (α : Type) where
  | fails : Cast α
  | ok (a : α) : Cast α
  deriving DecidableEq, Repr

/-- Errors a handler can end with: an `AppError` with its message and status
code, or one of the errors thrown by Mongoose or by the JavaScript runtime. -/
inductive Err where
  | app (message : String) (statusCode : Nat)
  | castError
  | validationError
  | typeError
  deriving DecidableEq, Repr

deriving instance DecidableEq for Except

/-- An element of `breakTime` in an availability entry (`user.model.js`); `stop`
is the field `end`. -/
structure BreakTime where
  start : String
  stop : String
  deriving DecidableEq, Repr

/-- An element of the `availability` array of `userSchema` (`user.model.js`). -/
structure AvailabilityEntry where
  day : String
  startTime : String
  endTime : String
  isAvailable : Bool := true
  breakTime : List BreakTime := []
  deriving DecidableEq, Repr

/-- The fields of `user.model.js` that the appointment routes read, and the
`availability` of a doctor. -/
structure User where
  _id : ObjectId
  role : String
  verificationStatus : String
  isActive : Bool
  availability : List AvailabilityEntry := []
  deriving DecidableEq, Repr

/-- A document of `appointmentSchema` (`appointment.model.js`). -/
structure Appointment where
  _id : ObjectId
  patient : ObjectId
  doctor : ObjectId
  date : Int
  time : String
  reason : String
  status : String
  type : String
  notes : Option String
  followUpDate : Option Int
  deriving DecidableEq, Repr

/-- The two collections the appointment routes use. -/
structure Db where
  users : List User
  appointments : List Appointment
  deriving DecidableEq, Repr

/-- JavaScript truthiness of an optional string field: present and non-empty. -/
def truthy : Option String → Bool
  | some s => s != ""
  | none => false

/-! ## The Appointment model -/

/-- Enum of the `status` path. -/
def statusEnum : List String := ["pending", "confirmed", "completed", "cancelled"]

/-- Enum of the `type` path. -/
def typeEnum : List String := ["in-person", "online"]

/-- Document validation of `appointmentSchema`: the enum validators of `status`
and `type` and the `required` validators of the string paths `time` and
`reason` (a required string must be non-empty).  The other required paths
(`patient`, `doctor`, `date`) always hold a value in this model. -/
def Appointment.validate (a : Appointment) : Bool :=
  statusEnum.contains a.status && typeEnum.contains a.type && a.time != "" && a.reason != ""

/-- A fresh `_id`, different from every id in the collection. -/
def freshId (db : Db) : ObjectId :=
  (db.appointments.map (fun a => a._id)).foldr max 0 + 1

/-- `Appointment.create(doc)`: validates the document and inserts it under a
fresh `_id`.  The `_id` of the argument is ignored. -/
def Appointment.create (doc : Appointment) (db : Db) : Db × Except Err Appointment :=
  let a := { doc with _id := freshId db }
  if a.validate then
    ({ db with appointments := db.appointments ++ [a] }, .ok a)
  else
    (db, .error .validationError)

/-- `Appointment.findOne(filter)`. -/
def Appointment.findOne (p : Appointment → Bool) (db : Db) : Option Appointment :=
  db.appointments.find? p

/-- `Appointment.find(filter)`. -/
def Appointment.find (p : Appointment → Bool) (db : Db) : List Appointment :=
  db.appointments.filter p

/-- `Appointment.findById(id)`. -/
def Appointment.findById (id : Cast ObjectId) (db : Db) : Except Err (Option Appointment) :=
  match id with
  | .fails => .error .castError
  | .ok i => .ok (Appointment.findOne (fun a => a._id == i) db)

/-- Replaces the first document whose `_id` is that of `a` by `a`. -/
def replaceById (a : Appointment) : List Appointment → List Appointment
  | [] => []
  | b :: bs => if b._id == a._id then a :: bs else b :: replaceById a bs

/-- `doc.save()` of a loaded and then modified document: validates the document
and writes it back under its `_id`. -/
def Appointment.save (a : Appointment) (db : Db) : Db × Except Err Appointment :=
  if a.validate then
    ({ db with appointments := replaceById a db.appointments }, .ok a)
  else
    (db, .error .validationError)

/-! ## POST /appointments : create a new appointment -/

/-- Body of the booking request. -/
structure BookingBody where
  doctor : Option (Cast ObjectId)
  date : Option (Cast Int)
  time : Option String
  reason : Option String
  type : Option String
  deriving DecidableEq, Repr

/-- The check `!doctor || !date || !time || !reason || !type` passed: the five
fields, all truthy. -/
def requiredFields (body : BookingBody) :
    Option (Cast ObjectId × Cast Int × String × String × String) :=
  match body.doctor, body.date, body.time, body.reason, body.type with
  | some doctor, some date, some time, some reason, some type =>
    if truthy (some time) && truthy (some reason) && truthy (some type) then
      some (doctor, date, time, reason, type)
    else none
  | _, _, _, _, _ => none

/-- The query
`User.findOne({ _id: doctor, role: 'doctor', verificationStatus: 'approved', isActive: true })`. -/
def findApprovedDoctor (doctor : Cast ObjectId) (db : Db) : Except Err (Option User) :=
  match doctor with
  | .fails => .error .castError
  | .ok d => .ok (db.users.find? (fun u =>
      u._id == d && u.role == "doctor" && u.verificationStatus == "approved" && u.isActive))

/-- Filter of the slot check:
`{ doctor, date: new Date(date), time, status: { $in: ['pending', 'confirmed'] } }`. -/
def occupies (d : ObjectId) (t : Int) (time : String) (a : Appointment) : Bool :=
  a.doctor == d && a.date == t && a.time == time &&
    (a.status == "pending" || a.status == "confirmed")

/-- The query `Appointment.findOne` of the slot check. -/
def findExistingAppointment (doctor : Cast ObjectId) (date : Cast Int) (time : String)
    (db : Db) : Except Err (Option Appointment) :=
  match doctor, date with
  | .ok d, .ok t => .ok (Appointment.findOne (occupies d t time) db)
  | _, _ => .error .castError

/-- The document handed to `Appointment.create` by the booking handler
(`consultationFee` is not a path of the schema and is dropped).  A value that
does not cast makes `create` fail in validation. -/
def newAppointment (user : User) (doctor : Cast ObjectId) (date : Cast Int)
    (time reason type : String) : Except Err Appointment :=
  match doctor, date with
  | .ok d, .ok t =>
    .ok { _id := 0, patient := user._id, doctor := d, date := t, time := time,
          reason := reason, status := "pending", type := type, notes := none,
          followUpDate := none }
  | _, _ => .error .validationError

/-- Handler of `router.post('/')` in `appointment.routes.js`, behind `protect`.
A failure of the notification to the doctor is caught and logged. -/
def createAppointment (user : User) (body : BookingBody) (db : Db) :
    Db × Except Err Appointment :=
  match requiredFields body with
  | none => (db, .error (.app "Please provide all required fields" 400))
  | some (doctor, date, time, reason, type) =>
    match findApprovedDoctor doctor db with
    | .error e => (db, .error e)
    | .ok none => (db, .error (.app "Doctor not found or not available" 404))
    | .ok (some _) =>
      match findExistingAppointment doctor date time db with
      | .error e => (db, .error e)
      | .ok (some _) => (db, .error (.app "This time slot is already booked" 400))
      | .ok none =>
        match newAppointment user doctor date time reason type with
        | .error e => (db, .error e)
        | .ok doc => Appointment.create doc db

/-! ## PATCH /appointments/:id/status : update appointment status -/

/-- The object `validTransitions`; a status that is not one of its four keys
has no entry. -/
def validTransitions : String → Option (List String)
  | "pending" => some ["confirmed", "cancelled"]
  | "confirmed" => some ["completed", "cancelled"]
  | "cancelled" => some []
  | "completed" => some []
  | _ => none

/-- Handler of `router.patch('/:id/status')` in `appointment.routes.js`, behind
`protect`.  `status` is `req.body.status`, `none` when the body has none. -/
def updateAppointmentStatus (user : User) (id : Cast ObjectId) (status : Option String)
    (db : Db) : Db × Except Err Appointment :=
  match Appointment.findById id db with
  | .error e => (db, .error e)
  | .ok none => (db, .error (.app "Appointment not found" 404))
  | .ok (some appointment) =>
    if user.role == "doctor" && appointment.doctor != user._id then
      (db, .error (.app "Not authorized to update this appointment" 403))
    else if user.role == "patient" && appointment.patient != user._id then
      (db, .error (.app "Not authorized to update this appointment" 403))
    else
      match validTransitions appointment.status with
      | none => (db, .error .typeError)
      | some targets =>
        match status with
        | none =>
          (db, .error (.app ("Cannot change status from " ++ appointment.status ++
            " to undefined") 400))
        | some s =>
          if !targets.contains s then
            (db, .error (.app ("Cannot change status from " ++ appointment.status ++
              " to " ++ s) 400))
          else
            Appointment.save { appointment with status := s } db

/-! ## PATCH /appointments/:id/cancel : cancel an appointment -/

/-- The middleware `isPatient` of `auth.js`. -/
def isPatient (user : User) : Except Err Unit :=
  if user.role != "patient" then .error (.app "Only patients can access this route" 403)
  else .ok ()

/-- The middleware `isDoctor` of `auth.js`. -/
def isDoctor (user : User) : Except Err Unit :=
  if user.role != "doctor" then .error (.app "Only doctors can access this route" 403)
  else .ok ()

/-- Handler of `router.patch('/:id/cancel')` in `appointment.routes.js`, behind
`protect` and `isPatient`. -/
def cancelAppointment (user : User) (id : Cast ObjectId) (db : Db) :
    Db × Except Err Appointment :=
  match isPatient user with
  | .error e => (db, .error e)
  | .ok () =>
    match id with
    | .fails => (db, .error .castError)
    | .ok i =>
      match Appointment.findOne (fun a => a._id == i && a.patient == user._id) db with
      | none => (db, .error (.app "Appointment not found" 404))
      | some appointment =>
        if appointment.status == "cancelled" then
          (db, .error (.app "Appointment is already cancelled" 400))
        else if appointment.status == "completed" then
          (db, .error (.app "Cannot cancel a completed appointment" 400))
        else
          Appointment.save { appointment with status := "cancelled" } db

/-! ## validateAppointmentData (validators.js) -/

/-- Test of `/^([01]?[0-9]|2[0-3]):[0-5][0-9]$/` on the characters of a string:
one digit, or `0` or `1` and a digit, or `2` and one of `0..3`; then a colon, one
of `0..5` and a digit. -/
def timeRegexChars : List Char → Bool
  | [h, ':', m1, m2] => h.isDigit && ('0' ≤ m1 && m1 ≤ '5') && m2.isDigit
  | [h1, h2, ':', m1, m2] =>
    (((h1 == '0' || h1 == '1') && h2.isDigit) || (h1 == '2' && ('0' ≤ h2 && h2 ≤ '3'))) &&
      ('0' ≤ m1 && m1 ≤ '5') && m2.isDigit
  | _ => false

/-- The test `timeRegex.test(s)`. -/
def timeRegex (s : String) : Bool := timeRegexChars s.data

/-- Value of `Number` on a run of decimal digits. -/
def digitsValue (cs : List Char) : Nat :=
  cs.foldl (fun n c => 10 * n + (c.toNat - '0'.toNat)) 0

/-- The pair `s.split(':').map(Number)` of a string the pattern accepts. -/
def splitTime (s : String) : Nat × Nat :=
  (digitsValue (s.data.takeWhile (fun c => c != ':')),
   digitsValue ((s.data.dropWhile (fun c => c != ':')).drop 1))

/-- Length of a JavaScript string: the number of UTF-16 code units. -/
def jsLength (s : String) : Nat :=
  s.data.foldl (fun n c => n + (if c.toNat < 65536 then 1 else 2)) 0

/-- Body of the general update request. -/
structure UpdateBody where
  date : Option (Cast Int)
  startTime : Option String
  endTime : Option String
  type : Option String
  notes : Option String
  symptoms : Option String
  status : Option String
  priority : Option String
  deriving DecidableEq, Repr

/-- The list `validTypes` of `validateAppointmentData`. -/
def validTypes : List String := ["consultation", "follow-up", "emergency", "routine", "specialist"]

/-- The list `validPriorities` of `validateAppointmentData`. -/
def validPriorities : List String := ["low", "medium", "high", "urgent"]

/-- The time-range part of `validateAppointmentData`, entered when both times
are truthy (and so have passed the pattern). -/
def validateTimeRange (startTime endTime : String) : Option String :=
  let startTotalMinutes := (splitTime startTime).1 * 60 + (splitTime startTime).2
  let endTotalMinutes := (splitTime endTime).1 * 60 + (splitTime endTime).2
  if endTotalMinutes ≤ startTotalMinutes then some "End time must be after start time"
  else if endTotalMinutes - startTotalMinutes < 15 then
    some "Appointment duration must be at least 15 minutes"
  else if endTotalMinutes - startTotalMinutes > 180 then
    some "Appointment duration cannot exceed 3 hours"
  else none

/-- The function `validateAppointmentData(data, isUpdate)` of `validators.js`:
the first violated rule, or `none` for the `null` it returns on valid data.
`today` is the local midnight of the current day.  The fields are strings, so
the `typeof` tests on `symptoms` and `notes` pass. -/
def validateAppointmentData (data : UpdateBody) (isUpdate : Bool) (today : Int) :
    Option String :=
  if !isUpdate && data.date.isNone then some "Date is required"
  else if !isUpdate && !truthy data.startTime then some "Start time is required"
  else if !isUpdate && !truthy data.endTime then some "End time is required"
  else if !isUpdate && !truthy data.type then some "Appointment type is required"
  else if (match data.date with
      | some (.ok appointmentDate) => decide (appointmentDate < today)
      | _ => false) then some "Appointment date cannot be in the past"
  else if truthy data.startTime && !timeRegex (data.startTime.getD "") then
    some "Invalid start time format. Use HH:MM format"
  else if truthy data.endTime && !timeRegex (data.endTime.getD "") then
    some "Invalid end time format. Use HH:MM format"
  else
    match (if truthy data.startTime && truthy data.endTime then
        validateTimeRange (data.startTime.getD "") (data.endTime.getD "") else none) with
    | some msg => some msg
    | none =>
      if truthy data.type && !validTypes.contains (data.type.getD "") then
        some "Invalid appointment type"
      else if truthy data.priority && !validPriorities.contains (data.priority.getD "") then
        some "Invalid priority level"
      else if truthy data.symptoms && jsLength (data.symptoms.getD "") > 1000 then
        some "Symptoms description is too long"
      else if truthy data.notes && jsLength (data.notes.getD "") > 2000 then
        some "Notes are too long"
      else none

/-! ## PATCH /appointments/:id : update an appointment -/

/-- The `$set` of the general update applied to a document: `date`, `type`,
`notes` and `status` when truthy in the body.  The keys `startTime`, `endTime`,
`symptoms` and `priority` are not paths of the schema and are dropped. -/
def applySet (body : UpdateBody) (a : Appointment) : Except Err Appointment :=
  match (match body.date with
      | some .fails => none
      | some (.ok t) => some t
      | none => some a.date) with
  | none => .error .castError
  | some date =>
    .ok { a with
      date := date
      type := if truthy body.type then body.type.getD "" else a.type
      notes := if truthy body.notes then body.notes else a.notes
      status := if truthy body.status then body.status.getD "" else a.status }

/-- Update validators run by `runValidators: true` on the paths of the `$set`:
the enum validators of `type` and `status`. -/
def updateValidators (body : UpdateBody) : Bool :=
  (!truthy body.type || typeEnum.contains (body.type.getD "")) &&
  (!truthy body.status || statusEnum.contains (body.status.getD ""))

/-- Handler of `router.patch('/:id')` in `appointment.routes.js`, behind
`protect`.  `today` is the local midnight of the current day and `notification`
the outcome of `sendAppointmentNotification`, which is awaited after the
write.  The model has no method `canBeCancelled`, so the call of it, made when
the requested status is `cancelled`, throws a `TypeError`. -/
def updateAppointment (user : User) (id : Cast ObjectId) (body : UpdateBody) (today : Int)
    (notification : Except Err Unit) (db : Db) : Db × Except Err Appointment :=
  match Appointment.findById id db with
  | .error e => (db, .error e)
  | .ok none => (db, .error (.app "Appointment not found" 404))
  | .ok (some appointment) =>
    if user.role != "admin" && appointment.patient != user._id &&
        appointment.doctor != user._id then
      (db, .error (.app "You are not authorized to update this appointment" 403))
    else
      match validateAppointmentData body true today with
      | some validationError => (db, .error (.app validationError 400))
      | none =>
        if body.status == some "cancelled" then (db, .error .typeError)
        else
          match applySet body appointment with
          | .error e => (db, .error e)
          | .ok updatedAppointment =>
            if !updateValidators body then (db, .error .validationError)
            else
              let stored := replaceById updatedAppointment db.appointments
              let db1 := { db with appointments := stored }
              match notification with
              | .error e => (db1, .error e)
              | .ok () => (db1, .ok updatedAppointment)

/-! ## The doctor router (doctor.routes.js), behind `protect` and `isDoctor` -/

/-- Handler of `router.patch('/appointments/:id')` in `doctor.routes.js`:
`findOneAndUpdate({ _id, doctor: req.user._id }, { status }, { new: true })`, with
no validators.  An undefined `status` leaves the update empty. -/
def doctorUpdateAppointment (user : User) (id : Cast ObjectId) (status : Option String)
    (db : Db) : Db × Except Err Appointment :=
  match isDoctor user with
  | .error e => (db, .error e)
  | .ok () =>
    match id with
    | .fails => (db, .error .castError)
    | .ok i =>
      match Appointment.findOne (fun a => a._id == i && a.doctor == user._id) db with
      | none => (db, .error (.app "Appointment not found" 404))
      | some appointment =>
        let updated := { appointment with status := status.getD appointment.status }
        ({ db with appointments := replaceById updated db.appointments }, .ok updated)

/-- Body of the follow-up request. -/
structure FollowUpBody where
  appointmentId : Option (Cast ObjectId)
  date : Option (Cast Int)
  time : Option String
  reason : Option String
  deriving DecidableEq, Repr

/-- Handler of `router.post('/appointments/follow-up')` in `doctor.routes.js`.
An undefined value in a filter is matched as `null`, which no stored document
holds in `_id`, `date` or `time`. -/
def scheduleFollowUp (user : User) (body : FollowUpBody) (db : Db) :
    Db × Except Err Appointment :=
  match isDoctor user with
  | .error e => (db, .error e)
  | .ok () =>
    match body.appointmentId with
    | some .fails => (db, .error .castError)
    | none => (db, .error (.app "Completed appointment not found" 404))
    | some (.ok i) =>
      match Appointment.findOne
          (fun a => a._id == i && a.doctor == user._id && a.status == "completed") db with
      | none => (db, .error (.app "Completed appointment not found" 404))
      | some originalAppointment =>
        match body.date with
        | some .fails => (db, .error .castError)
        | none => (db, .error .validationError)
        | some (.ok t) =>
          match Appointment.findOne (fun a => a.doctor == user._id && a.date == t &&
              some a.time == body.time && a.status != "cancelled") db with
          | some _ => (db, .error (.app "This time slot is already booked" 400))
          | none =>
            Appointment.create
              { _id := 0, patient := originalAppointment.patient, doctor := user._id,
                date := t, time := body.time.getD "", reason := body.reason.getD "",
                status := "scheduled", type := "follow-up", notes := none,
                followUpDate := none } db

/-! ## The slot listings of the doctor router -/

/-- `s.padStart(targetLength, padChar)` for a one-character pad. -/
def padStart (s : String) (targetLength : Nat) (padChar : Char) : String :=
  String.mk (List.replicate (targetLength - s.length) padChar) ++ s

/-- The array `allSlots` of `router.get('/available-slots/:doctorId')`: one slot
for each `hour` from 9 while `hour < 17`. -/
def hourlySlots : List String :=
  ((List.range 17).filter (fun hour => 9 ≤ hour)).map
    (fun hour => padStart (toString hour) 2 '0' ++ ":00")

/-- Handler of `router.get('/available-slots/:doctorId')` in `doctor.routes.js`:
the slots of `allSlots` that are not the `time` of a pending or confirmed
appointment of the doctor on the date.  `date` is `req.query.date` under
`new Date`.  The availability of the doctor is not read. -/
def availableSlots (user : User) (doctorId : Cast ObjectId) (date : Option (Cast Int))
    (db : Db) : Except Err (List String) :=
  match isDoctor user with
  | .error e => .error e
  | .ok () =>
    match date with
    | none => .error (.app "Date is required" 400)
    | some date =>
      match findApprovedDoctor doctorId db with
      | .error e => .error e
      | .ok none => .error (.app "Doctor not found or not available" 404)
      | .ok (some _) =>
        match doctorId, date with
        | .ok d, .ok t =>
          let bookedSlots := Appointment.find (fun a => a.doctor == d && a.date == t &&
            (a.status == "pending" || a.status == "confirmed")) db
          let bookedTimes := bookedSlots.map (fun slot => slot.time)
          .ok (hourlySlots.filter (fun slot => !bookedTimes.contains slot))
        | _, _ => .error .castError

/-- The array `allSlots` of `router.get('/available-slots')`: for each `hour`
from 9 while `hour <= 17` the full hour and, except for 17, the half hour. -/
def halfHourSlots : List String :=
  ((List.range 18).filter (fun hour => 9 ≤ hour)).flatMap (fun hour =>
    [padStart (toString hour) 2 '0' ++ ":00"] ++
      (if hour != 17 then [padStart (toString hour) 2 '0' ++ ":30"] else []))

/-- Handler of `router.get('/available-slots')` in `doctor.routes.js`: the slots
of `allSlots` that are not the `time` of an appointment of the requesting doctor
on the date whose status is not `cancelled`.  The route is registered after
`router.get('/:id')`, whose pattern also matches the path `/available-slots`. -/
def ownAvailableSlots (user : User) (date : Option (Cast Int)) (db : Db) :
    Except Err (List String) :=
  match isDoctor user with
  | .error e => .error e
  | .ok () =>
    match date with
    | none => .error (.app "Please provide a date" 400)
    | some .fails => .error .castError
    | some (.ok t) =>
      let bookedAppointments := Appointment.find (fun a => a.doctor == user._id &&
        a.date == t && a.status != "cancelled") db
      let bookedTimes := bookedAppointments.map (fun apt => apt.time)
      .ok (halfHourSlots.filter (fun slot => !bookedTimes.contains slot))

/-- Minutes since midnight of a time string, the `hours * 60 + minutes` of the
validators. -/
def totalMinutes (s : String) : Nat :=
  (splitTime s).1 * 60 + (splitTime s).2

/-! ## The availability updates -/

/-- An element of the array `req.body.availability`; a field that the request
does not carry is `none`. -/
structure AvailabilitySlot where
  day : Option String
  startTime : Option String
  endTime : Option String
  isAvailable : Option Bool := none
  breakTime : List BreakTime := []
  deriving DecidableEq, Repr

/-- The array `validDays` of the availability validators, which is also the
enum of the path `day`. -/
def validDays : List String :=
  ["monday", "tuesday", "wednesday", "thursday", "friday", "saturday", "sunday"]

/-- The element of `availability` that Mongoose stores for a slot of the
request; `isAvailable` defaults to `true`. -/
def AvailabilitySlot.cast (slot : AvailabilitySlot) : AvailabilityEntry :=
  AvailabilityEntry.mk (slot.day.getD "") (slot.startTime.getD "") (slot.endTime.getD "")
    (slot.isAvailable.getD true) slot.breakTime

/-- Validators of an element of `availability`, run by `runValidators: true`:
`day` is required and in the enum, `startTime` and `endTime` are required and
match the time pattern. -/
def AvailabilitySlot.validate (slot : AvailabilitySlot) : Bool :=
  truthy slot.day && validDays.contains (slot.day.getD "") &&
  truthy slot.startTime && timeRegex (slot.startTime.getD "") &&
  truthy slot.endTime && timeRegex (slot.endTime.getD "")

/-- `User.findByIdAndUpdate(id, { availability }, { new: true, runValidators: true })`
followed by the read of `doctor.availability` for the response: a validation
error when an element fails its validators, a `TypeError` when no user has the
id (the update returns `null`). -/
def User.updateAvailability (id : ObjectId) (availability : List AvailabilitySlot) (db : Db) :
    Db × Except Err (List AvailabilityEntry) :=
  if !availability.all AvailabilitySlot.validate then (db, .error .validationError)
  else if !db.users.any (fun u => u._id == id) then (db, .error .typeError)
  else
    let stored := availability.map AvailabilitySlot.cast
    (Db.mk (db.users.map (fun u => if u._id == id then { u with availability := stored } else u))
      db.appointments, .ok stored)

/-- `timeRegex.test(value)` on a field of a slot: an undefined value is tested as
the string `undefined`. -/
def testTime (value : Option String) : Bool :=
  timeRegex (value.getD "undefined")

/-- The loop over the slots in `router.patch('/availability')` of
`doctor.routes.js`: the error thrown at the first slot that fails a check. -/
def doctorCheckSlots : List AvailabilitySlot → Option Err
  | [] => none
  | slot :: rest =>
    if !(match slot.day with
        | some day => validDays.contains day
        | none => false) then
      some (.app ("Invalid day: " ++ slot.day.getD "undefined") 400)
    else if !testTime slot.startTime || !testTime slot.endTime then
      some (.app "Invalid time format. Use HH:MM format" 400)
    else doctorCheckSlots rest

/-- Handler of `router.patch('/availability')` in `doctor.routes.js`, behind
`protect` and `isDoctor`.  `availability` is `none` when the body holds no
array. -/
def updateAvailability (user : User) (availability : Option (List AvailabilitySlot))
    (db : Db) : Db × Except Err (List AvailabilityEntry) :=
  match isDoctor user with
  | .error e => (db, .error e)
  | .ok () =>
    match availability with
    | none => (db, .error (.app "Availability must be an array" 400))
    | some slots =>
      match doctorCheckSlots slots with
      | some e => (db, .error e)
      | none => User.updateAvailability user._id slots db

/-- The middleware `restrictTo(...roles)` of `auth.js`. -/
def restrictTo (roles : List String) (user : User) : Except Err Unit :=
  if !roles.contains user.role then
    .error (.app "You do not have permission to perform this action" 403)
  else .ok ()

/-- The loop over the slots in `router.patch('/doctor/availability')` of
`appointment.routes.js`: the error thrown at the first slot that fails a
check. -/
def checkSlots : List AvailabilitySlot → Option Err
  | [] => none
  | slot :: rest =>
    if !truthy slot.day || !truthy slot.startTime || !truthy slot.endTime then
      some (.app "Each availability slot must have day, startTime, and endTime" 400)
    else if !testTime slot.startTime || !testTime slot.endTime then
      some (.app "Invalid time format. Use HH:MM format" 400)
    else if totalMinutes (slot.endTime.getD "") ≤ totalMinutes (slot.startTime.getD "") then
      some (.app "End time must be after start time" 400)
    else checkSlots rest

/-- Handler of `router.patch('/doctor/availability')` in `appointment.routes.js`,
behind `protect` and `restrictTo('doctor')`. -/
def updateDoctorAvailability (user : User) (availability : Option (List AvailabilitySlot))
    (db : Db) : Db × Except Err (List AvailabilityEntry) :=
  match restrictTo ["doctor"] user with
  | .error e => (db, .error e)
  | .ok () =>
    match availability with
    | none => (db, .error (.app "Availability must be an array" 400))
    | some slots =>
      match checkSlots slots with
      | some e => (db, .error e)
      | none => User.updateAvailability user._id slots db

/-! ## POST /auth/register : register a new user (auth.routes.js) -/

/-- The fields of a user document that the registration reads and writes.  The
password hash and the token of the response are not modelled. -/
structure Account where
  _id : ObjectId
  name : String
  email : String
  role : String
  deriving DecidableEq, Repr

/-- Body of the registration request. -/
structure RegisterBody where
  name : Option String
  email : Option String
  password : Option String
  role : Option String
  phone : Option String := none
  deriving DecidableEq, Repr

/-- The class `\s` of JavaScript patterns: white space and line terminators. -/
def isJsSpace (c : Char) : Bool :=
  c.toNat == 9 || c.toNat == 10 || c.toNat == 11 || c.toNat == 12 || c.toNat == 13 ||
  c.toNat == 32 || c.toNat == 160 || c.toNat == 5760 ||
  (8192 ≤ c.toNat && c.toNat ≤ 8202) || c.toNat == 8232 || c.toNat == 8233 ||
  c.toNat == 8239 || c.toNat == 8287 || c.toNat == 12288 || c.toNat == 65279

/-- `s.trim()`. -/
def jsTrim (s : String) : String :=
  String.mk ((s.data.dropWhile isJsSpace).reverse.dropWhile isJsSpace).reverse

/-- Test of `/^[^\s@]+@[^\s@]+\.[^\s@]+$/` on the characters of a string: a
non-empty run without space or `@`, an `@`, and a run without space or `@` that
holds a dot with a character before it and a character after it. -/
def emailRegexChars (cs : List Char) : Bool :=
  let plain := fun (c : Char) => !isJsSpace c && c != '@'
  let rest := (cs.dropWhile plain).drop 1
  (cs.takeWhile plain).length != 0 && (cs.dropWhile plain).head? == some '@' &&
    rest.all plain && ((rest.drop 1).dropLast).contains '.'

/-- Test of the `match` of the path `email`, `/^\S+@\S+\.\S+$/`: no space, and
an `@` after the first character that is followed by a dot with a character
before it and a character after it. -/
def emailMatchChars (cs : List Char) : Bool :=
  cs.all (fun c => !isJsSpace c) &&
    (cs.tails.drop 1).any (fun t =>
      match t with
      | '@' :: rest => ((rest.drop 1).dropLast).contains '.'
      | _ => false)

/-- The validator of the path `password`,
`/^(?=.*[a-z])(?=.*[A-Z])(?=.*\d).{8,}$/`: at least 8 code units, none a line
terminator, with a lower case letter, an upper case letter and a digit. -/
def passwordValidator (s : String) : Bool :=
  decide (8 ≤ jsLength s) &&
  s.data.all (fun c => !(c.toNat == 10 || c.toNat == 13 || c.toNat == 8232 || c.toNat == 8233)) &&
  s.data.any (fun c => 'a' ≤ c && c ≤ 'z') && s.data.any (fun c => 'A' ≤ c && c ≤ 'Z') &&
  s.data.any Char.isDigit

/-- Test of the `match` of the path `phone`, `/^\+?[\d\s-]{10,}$/`. -/
def phoneMatchChars (cs : List Char) : Bool :=
  let body := match cs with
    | '+' :: rest => rest
    | _ => cs
  decide (10 ≤ body.length) && body.all (fun c => c.isDigit || isJsSpace c || c == '-')

/-- A fresh `_id` for the users collection. -/
def freshAccountId (accounts : List Account) : ObjectId :=
  (accounts.map (fun a => a._id)).foldr max 0 + 1

/-- `User.create` as the registration calls it: the setters (`trim` on `name`,
`lowercase` and `trim` on `email`, `trim` on `phone`), then the validators of
`name`, `email`, `password`, `role` and `phone`; `gender` and `dateOfBirth` are
not paths of the schema.  `toLowerCase` is the function of the JavaScript
runtime.  The unique index on `email` is not modelled: the handler creates the
user only after it has found no user with the email. -/
def Account.create (toLowerCase : String → String) (name email password role phone : String)
    (accounts : List Account) : List Account × Except Err Account :=
  let name1 := jsTrim name
  let email1 := jsTrim (toLowerCase email)
  let phone1 := jsTrim phone
  if name1 != "" && decide (2 ≤ jsLength name1) && decide (jsLength name1 ≤ 50) &&
      email1 != "" && emailMatchChars email1.data &&
      password != "" && decide (8 ≤ jsLength password) && passwordValidator password &&
      ["admin", "doctor", "patient"].contains role &&
      (phone1 == "" || phoneMatchChars phone1.data) then
    let account := Account.mk (freshAccountId accounts) name1 email1 role
    (accounts ++ [account], .ok account)
  else (accounts, .error .validationError)

/-- The message of the missing fields check:
`missingFields.join(', ')` after the prefix. -/
def missingFieldsMessage (body : RegisterBody) : String :=
  "Missing required fields: " ++ ", ".intercalate
    ((if truthy body.name then [] else ["name"]) ++
     (if truthy body.email then [] else ["email"]) ++
     (if truthy body.password then [] else ["password"]) ++
     (if truthy body.role then [] else ["role"]))

/-- Handler of `router.post('/register')` in `auth.routes.js`.  The filter of
`User.findOne({ email })` is cast by the setters of the path `email`. -/
def register (toLowerCase : String → String) (body : RegisterBody) (accounts : List Account) :
    List Account × Except Err Account :=
  match body.name, body.email, body.password, body.role with
  | some name, some email, some password, some role =>
    if !(truthy body.name && truthy body.email && truthy body.password && truthy body.role) then
      (accounts, .error (.app (missingFieldsMessage body) 400))
    else if !emailRegexChars email.data then
      (accounts, .error (.app "Invalid email format" 400))
    else if jsLength password < 8 then
      (accounts, .error (.app "Password must be at least 8 characters long" 400))
    else if !(["patient", "doctor", "admin"].contains role) then
      (accounts, .error (.app "Invalid role. Must be one of: patient, doctor, admin" 400))
    else if role == "admin" && accounts.any (fun a => a.role == "admin") then
      (accounts, .error (.app "An admin account already exists" 400))
    else if accounts.any (fun a => a.email == jsTrim (toLowerCase email)) then
      (accounts, .error (.app "Email already in use" 400))
    else
      Account.create toLowerCase name email password role (body.phone.getD "") accounts
  | _, _, _, _ => (accounts, .error (.app (missingFieldsMessage body) 400))

/-- Lower case of the letters `A` to `Z`, which is `toLowerCase` on a string of
ASCII characters. -/
def asciiLower (s : String) : String :=
  String.mk (s.data.map Char.toLower)

/-! ## Sequences of requests -/

/-- A request to one of the operations that write appointments. -/
inductive Op where
  | book (user : User) (body : BookingBody)
  | followUp (user : User) (body : FollowUpBody)
  | cancel (user : User) (id : Cast ObjectId)
  | setStatus (user : User) (id : Cast ObjectId) (status : Option String)
  | update (user : User) (id : Cast ObjectId) (body : UpdateBody) (today : Int)
      (notification : Except Err Unit)
  | doctorUpdate (user : User) (id : Cast ObjectId) (status : Option String)

/-- The handler of a request, as a function on the database. -/
def Op.handle : Op → Db → Db × Except Err Appointment
  | .book user body => createAppointment user body
  | .followUp user body => scheduleFollowUp user body
  | .cancel user id => cancelAppointment user id
  | .setStatus user id status => updateAppointmentStatus user id status
  | .update user id body today notification => updateAppointment user id body today notification
  | .doctorUpdate user id status => doctorUpdateAppointment user id status

/-- The database after a sequence of requests, served one after the other. -/
def run (ops : List Op) (db : Db) : Db :=
  ops.foldl (fun d op => (op.handle d).1) db

/-! ## Interleaved booking requests

The booking handler awaits three store operations in turn: `User.findOne`,
`Appointment.findOne` and `Appointment.create`.  Each is atomic; between two of
them the event loop may run the steps of other requests. -/

/-- Where a booking request stands: not started, after the doctor lookup,
after the slot check found no appointment, or finished with its outcome. -/
inductive BookingProc where
  | start (user : User) (body : BookingBody)
  | doctorChecked (user : User) (doctor : Cast ObjectId) (date : Cast Int)
      (time reason type : String)
  | slotChecked (user : User) (doctor : Cast ObjectId) (date : Cast Int)
      (time reason type : String)
  | done (outcome : Except Err Appointment)
  deriving DecidableEq, Repr

/-- Runs a booking request up to and including its next store operation. -/
def BookingProc.step : BookingProc → Db → BookingProc × Db
  | .start user body, db =>
    match requiredFields body with
    | none => (.done (.error (.app "Please provide all required fields" 400)), db)
    | some (doctor, date, time, reason, type) =>
      match findApprovedDoctor doctor db with
      | .error e => (.done (.error e), db)
      | .ok none => (.done (.error (.app "Doctor not found or not available" 404)), db)
      | .ok (some _) => (.doctorChecked user doctor date time reason type, db)
  | .doctorChecked user doctor date time reason type, db =>
    match findExistingAppointment doctor date time db with
    | .error e => (.done (.error e), db)
    | .ok (some _) => (.done (.error (.app "This time slot is already booked" 400)), db)
    | .ok none => (.slotChecked user doctor date time reason type, db)
  | .slotChecked user doctor date time reason type, db =>
    match newAppointment user doctor date time reason type with
    | .error e => (.done (.error e), db)
    | .ok doc => (.done (Appointment.create doc db).2, (Appointment.create doc db).1)
  | .done outcome, db => (.done outcome, db)

/-- One step of the request at position `i`. -/
def stepAt (i : Nat) (procs : List BookingProc) (db : Db) : List BookingProc × Db :=
  match procs.get? i with
  | none => (procs, db)
  | some p => (procs.set i (p.step db).1, (p.step db).2)

/-- Runs the requests under a schedule: the list of the positions of the
requests that take the successive steps. -/
def runSchedule : List Nat → List BookingProc → Db → List BookingProc × Db
  | [], procs, db => (procs, db)
  | i :: is, procs, db => runSchedule is (stepAt i procs db).1 (stepAt i procs db).2

/-! ## Well-formed databases and example data -/

/-- What every stored collection satisfies: the `_id`s are pairwise distinct and
each document passes the validators of `type`, `time` and `reason`.  No
operation writes `time` or `reason` after creation, and `type` is only written
under validation (`wellFormed_run`). -/
def Db.WellFormed (db : Db) : Prop :=
  (db.appointments.map (fun b => b._id)).Nodup ∧
    ∀ a ∈ db.appointments, typeEnum.contains a.type = true ∧ a.time ≠ "" ∧ a.reason ≠ ""

/-- An approved, active doctor. -/
def exDoctor : User :=
  { _id := 1, role := "doctor", verificationStatus := "approved", isActive := true }

/-- A patient. -/
def exPatient : User :=
  { _id := 2, role := "patient", verificationStatus := "pending", isActive := true }

/-- Another patient. -/
def exOtherPatient : User :=
  { _id := 3, role := "patient", verificationStatus := "pending", isActive := true }

/-- The stored users of the examples. -/
def exUsers : List User := [exDoctor, exPatient, exOtherPatient]

/-- The users with no appointment stored. -/
def exDb0 : Db := { users := exUsers, appointments := [] }

/-- A booking request for `exDoctor`. -/
def exBody : BookingBody :=
  { doctor := some (.ok 1), date := some (.ok 1000), time := some "09:00",
    reason := some "flu", type := some "online" }

/-- An availability slot of a request with its day and times. -/
def exSlot (day startTime endTime : String) : AvailabilitySlot :=
  { day := some day, startTime := some startTime, endTime := some endTime }

/-- The booking request of `exBody` with another `time`. -/
def exBodyAt (time : String) : BookingBody :=
  { doctor := some (.ok 1), date := some (.ok 1000), time := some time,
    reason := some "flu", type := some "online" }

/-- The appointment that `exBody` asks for, with its `_id`, patient and status. -/
def exAppointment (id patient : ObjectId) (status : String) : Appointment :=
  { _id := id, patient := patient, doctor := 1, date := 1000, time := "09:00", reason := "flu",
    status := status, type := "online", notes := none, followUpDate := none }

/-- A doctor whose availability is Monday 09:00 to 12:00 with a break from
10:00 to 10:30. -/
def exTemplateDoctor : User :=
  { _id := 4, role := "doctor", verificationStatus := "approved", isActive := true,
    availability := [AvailabilityEntry.mk "monday" "09:00" "12:00" true
      [BreakTime.mk "10:00" "10:30"]] }

/-- A doctor whose only availability entry, for Monday, has `isAvailable` false. -/
def exClosedDoctor : User :=
  { _id := 5, role := "doctor", verificationStatus := "approved", isActive := true,
    availability := [AvailabilityEntry.mk "monday" "09:00" "12:00" false []] }

/-- The users with the two doctors that have an availability, and no
appointment. -/
def exTemplateDb : Db :=
  { users := exUsers ++ [exTemplateDoctor, exClosedDoctor], appointments := [] }

/-- Midnight UTC of 1970-01-05, a Monday (1970-01-01 was a Thursday). -/
def exMonday : Int := 345600000

/-- A general update request that only sets `status`. -/
def exStatusOnly (status : String) : UpdateBody :=
  { date := none, startTime := none, endTime := none, type := none, notes := none,
    symptoms := none, status := some status, priority := none }

/-! ## Lemmas on the store operations -/

theorem occupies_iff (d : ObjectId) (t : Int) (time : String) (a : Appointment) :
    occupies d t time a = true ↔
      a.doctor = d ∧ a.date = t ∧ a.time = time ∧ (a.status = "pending" ∨ a.status = "confirmed") := by
  simp [occupies, and_assoc]

theorem findExisting_isSome_iff (d : ObjectId) (t : Int) (time : String) (db : Db) :
    (∃ a, Appointment.findOne (occupies d t time) db = some a) ↔
      ∃ a ∈ db.appointments, a.doctor = d ∧ a.date = t ∧ a.time = time ∧
        (a.status = "pending" ∨ a.status = "confirmed") := by
  unfold Appointment.findOne
  constructor
  · rintro ⟨a, ha⟩
    exact ⟨a, List.mem_of_find?_eq_some ha, (occupies_iff d t time a).1 (List.find?_some ha)⟩
  · rintro ⟨a, hmem, ha⟩
    cases hf : db.appointments.find? (occupies d t time) with
    | some b => exact ⟨b, rfl⟩
    | none =>
      have := List.find?_eq_none.1 hf a hmem
      exact absurd ((occupies_iff d t time a).2 ha) this

theorem replaceById_length (c : Appointment) (l : List Appointment) :
    (replaceById c l).length = l.length := by
  induction l with
  | nil => rfl
  | cons b bs ih =>
    unfold replaceById
    split <;> simp [ih]

theorem replaceById_eq_map (c : Appointment) (l : List Appointment)
    (hnodup : (l.map (fun b => b._id)).Nodup) :
    replaceById c l = l.map (fun b => if b._id = c._id then c else b) := by
  induction l with
  | nil => rfl
  | cons b bs ih =>
    simp only [List.map_cons, List.nodup_cons] at hnodup
    unfold replaceById
    by_cases hb : b._id = c._id
    · have hno : ∀ x ∈ bs, x._id ≠ c._id := fun x hx e =>
        hnodup.1 (by rw [hb, ← e]; exact List.mem_map_of_mem _ hx)
      have hrest : bs.map (fun b => if b._id = c._id then c else b) = bs := by
        calc bs.map (fun b => if b._id = c._id then c else b)
            = bs.map id := List.map_congr_left (fun x hx => by simp [hno x hx])
          _ = bs := List.map_id bs
      simp [hb, hrest]
    · simp [hb, ih hnodup.2]

theorem find_of_mem_nodup (p : Appointment → Bool) (a : Appointment) (l : List Appointment)
    (hnodup : (l.map (fun b => b._id)).Nodup) (hmem : a ∈ l) (hp : p a = true)
    (hid : ∀ b, p b = true → b._id = a._id) : l.find? p = some a := by
  induction l with
  | nil => simp at hmem
  | cons b bs ih =>
    simp only [List.map_cons, List.nodup_cons] at hnodup
    rcases List.mem_cons.1 hmem with rfl | hin
    · simp [hp]
    · have hne : b._id ≠ a._id := fun e =>
        hnodup.1 (by rw [e]; exact List.mem_map_of_mem _ hin)
      have hpb : p b = false := by
        cases h : p b with
        | false => rfl
        | true => exact absurd (hid b h) hne
      simp [List.find?_cons, hpb, ih hnodup.2 hin]

theorem findById_of_mem (a : Appointment) (db : Db)
    (hnodup : (db.appointments.map (fun b => b._id)).Nodup) (hmem : a ∈ db.appointments) :
    Appointment.findById (.ok a._id) db = .ok (some a) := by
  simp only [Appointment.findById, Appointment.findOne]
  rw [find_of_mem_nodup _ a _ hnodup hmem (by simp) (by simp)]

theorem save_of_mem (c : Appointment) (db : Db)
    (hnodup : (db.appointments.map (fun b => b._id)).Nodup) (hvalid : c.validate = true) :
    Appointment.save c db =
      (Db.mk db.users (db.appointments.map (fun b => if b._id = c._id then c else b)), .ok c) := by
  simp [Appointment.save, hvalid, replaceById_eq_map c _ hnodup]

/-- The pairs of `validTransitions` on the four statuses of the enum. -/
theorem validTransitions_contains (cur s : String) (hcur : cur ∈ statusEnum) :
    (∃ l, validTransitions cur = some l ∧ l.contains s = true) ↔
      (cur = "pending" ∧ s = "confirmed") ∨ (cur = "pending" ∧ s = "cancelled") ∨
      (cur = "confirmed" ∧ s = "completed") ∨ (cur = "confirmed" ∧ s = "cancelled") := by
  simp only [statusEnum, List.mem_cons, List.mem_singleton, List.not_mem_nil, or_false] at hcur
  rcases hcur with rfl | rfl | rfl | rfl <;> simp [validTransitions]

theorem create_ok (doc : Appointment) (db db1 : Db) (a : Appointment)
    (h : Appointment.create doc db = (db1, .ok a)) :
    a = { doc with _id := freshId db } ∧
      db1 = { db with appointments := db.appointments ++ [a] } := by
  simp only [Appointment.create] at h
  by_cases hv : Appointment.validate { doc with _id := freshId db } = true
  · simp only [hv, if_true, Prod.mk.injEq, Except.ok.injEq] at h
    obtain ⟨rfl, rfl⟩ := h
    exact ⟨rfl, rfl⟩
  · simp [hv] at h

theorem save_ok (c : Appointment) (db db1 : Db) (r : Appointment)
    (h : Appointment.save c db = (db1, .ok r)) :
    r = c ∧ db1 = { db with appointments := replaceById c db.appointments } := by
  simp only [Appointment.save] at h
  by_cases hv : c.validate = true
  · simp only [hv, if_true, Prod.mk.injEq, Except.ok.injEq] at h
    exact ⟨h.2.symm, h.1.symm⟩
  · simp [hv] at h

theorem find_none_of_nodup (p : Appointment → Bool) (a : Appointment) (l : List Appointment)
    (hnodup : (l.map (fun b => b._id)).Nodup) (hmem : a ∈ l) (hp : p a = false)
    (hid : ∀ b, p b = true → b._id = a._id) : l.find? p = none := by
  apply List.find?_eq_none.2
  intro b hb hpb
  have hba : b = a := by
    have := List.inj_on_of_nodup_map hnodup hb hmem (hid b hpb)
    exact this
  rw [hba, hp] at hpb
  exact absurd hpb (by decide)

theorem cancel_find_own (user : User) (db : Db) (a : Appointment)
    (hnodup : (db.appointments.map (fun b => b._id)).Nodup) (hmem : a ∈ db.appointments)
    (hown : a.patient = user._id) :
    Appointment.findOne (fun b => b._id == a._id && b.patient == user._id) db = some a := by
  unfold Appointment.findOne
  apply find_of_mem_nodup _ a _ hnodup hmem
  · simp [hown]
  · intro b hb
    simp only [Bool.and_eq_true, beq_iff_eq] at hb
    exact hb.1

theorem cancel_terminal_once (user : User) (db : Db) (a : Appointment)
    (hnodup : (db.appointments.map (fun b => b._id)).Nodup) (hmem : a ∈ db.appointments)
    (hrole : user.role = "patient") (hown : a.patient = user._id)
    (hterm : a.status = "cancelled" ∨ a.status = "completed") :
    cancelAppointment user (.ok a._id) db =
      (db, .error (.app (if a.status = "cancelled" then "Appointment is already cancelled"
        else "Cannot cancel a completed appointment") 400)) := by
  have hfind := cancel_find_own user db a hnodup hmem hown
  rcases hterm with h | h <;> simp [cancelAppointment, isPatient, hrole, hfind, h]

theorem updateAppointmentStatus_reject (user : User) (requested : Option String) (db : Db)
    (a : Appointment) (hnodup : (db.appointments.map (fun b => b._id)).Nodup)
    (hmem : a ∈ db.appointments) (hstatus : a.status ∈ statusEnum)
    (hnot : ∀ s, requested = some s →
        ¬ ((a.status = "pending" ∧ s = "confirmed") ∨ (a.status = "pending" ∧ s = "cancelled") ∨
           (a.status = "confirmed" ∧ s = "completed") ∨
           (a.status = "confirmed" ∧ s = "cancelled"))) :
    (∃ e, (updateAppointmentStatus user (.ok a._id) requested db).2 = .error e) ∧
      (updateAppointmentStatus user (.ok a._id) requested db).1 = db := by
  have hfind := findById_of_mem a db hnodup hmem
  simp only [updateAppointmentStatus, hfind]
  split
  · exact ⟨⟨_, rfl⟩, rfl⟩
  · split
    · exact ⟨⟨_, rfl⟩, rfl⟩
    · split
      · exact ⟨⟨_, rfl⟩, rfl⟩
      · rename_i targets htargets
        cases requested with
        | none => exact ⟨⟨_, rfl⟩, rfl⟩
        | some s =>
          have hc : targets.contains s = false := by
            cases hcs : targets.contains s with
            | false => rfl
            | true =>
              exact absurd
                ((validTransitions_contains a.status s hstatus).1 ⟨targets, htargets, hcs⟩)
                (hnot s rfl)
          have hmem2 : s ∉ targets := by simpa using hc
          simp [hmem2]

theorem updateAppointmentStatus_accept (user : User) (s : String) (db : Db)
    (a : Appointment) (hnodup : (db.appointments.map (fun b => b._id)).Nodup)
    (hmem : a ∈ db.appointments)
    (htable : (a.status = "pending" ∧ s = "confirmed") ∨ (a.status = "pending" ∧ s = "cancelled") ∨
        (a.status = "confirmed" ∧ s = "completed") ∨ (a.status = "confirmed" ∧ s = "cancelled"))
    (hdoctor : user.role = "doctor" → a.doctor = user._id)
    (hpatient : user.role = "patient" → a.patient = user._id)
    (htype : typeEnum.contains a.type = true) (htime : a.time ≠ "") (hreason : a.reason ≠ "") :
    updateAppointmentStatus user (.ok a._id) (some s) db =
      (Db.mk db.users (db.appointments.map
          (fun b => if b._id = a._id then { a with status := s } else b)),
        .ok { a with status := s }) := by
  have hfind := findById_of_mem a db hnodup hmem
  have hstatus : a.status ∈ statusEnum := by
    rcases htable with ⟨h, _⟩ | ⟨h, _⟩ | ⟨h, _⟩ | ⟨h, _⟩ <;> simp [h, statusEnum]
  obtain ⟨targets, htargets, hc⟩ := (validTransitions_contains a.status s hstatus).2 htable
  have hsenum : statusEnum.contains s = true := by
    rcases htable with ⟨_, rfl⟩ | ⟨_, rfl⟩ | ⟨_, rfl⟩ | ⟨_, rfl⟩ <;> decide
  have hvalid : Appointment.validate { a with status := s } = true := by
    simp only [Appointment.validate, hsenum, htype, Bool.true_and, Bool.and_eq_true,
      bne_iff_ne, ne_eq]
    exact ⟨htime, hreason⟩
  have hauth1 : (user.role == "doctor" && a.doctor != user._id) = false := by
    by_cases h : user.role = "doctor"
    · simp [hdoctor h]
    · simp [h]
  have hauth2 : (user.role == "patient" && a.patient != user._id) = false := by
    by_cases h : user.role = "patient"
    · simp [hpatient h]
    · simp [h]
  simp only [updateAppointmentStatus, hfind, hauth1, hauth2, htargets, hc, Bool.not_true,
    Bool.false_eq_true, if_false]
  exact save_of_mem _ db hnodup hvalid

theorem actor_doctor_or_admin (user : User) (a : Appointment)
    (hactor : (user.role = "doctor" ∧ a.doctor = user._id) ∨ user.role = "admin") :
    (user.role = "doctor" → a.doctor = user._id) ∧
      (user.role = "patient" → a.patient = user._id) := by
  rcases hactor with ⟨h1, h2⟩ | h
  · exact ⟨fun _ => h2, fun h => by rw [h1] at h; exact absurd h (by decide)⟩
  · exact ⟨fun h' => by rw [h] at h'; exact absurd h' (by decide),
      fun h' => by rw [h] at h'; exact absurd h' (by decide)⟩

theorem map_replace_ids (c : Appointment) (l : List Appointment) :
    (l.map (fun b => if b._id = c._id then c else b)).map (fun b => b._id) =
      l.map (fun b => b._id) := by
  rw [List.map_map]
  apply List.map_congr_left
  intro b _
  by_cases h : b._id = c._id <;> simp [h]

theorem mem_map_replace (a c : Appointment) (l : List Appointment) (hmem : a ∈ l)
    (hid : a._id = c._id) : c ∈ l.map (fun b => if b._id = c._id then c else b) := by
  apply List.mem_map.2
  exact ⟨a, hmem, by simp [hid]⟩

theorem runSchedule_alone (user : User) (body : BookingBody) (db : Db) :
    runSchedule [0, 0, 0] [.start user body] db =
      ([.done (createAppointment user body db).2], (createAppointment user body db).1) := by
  simp only [runSchedule, stepAt, List.get?_cons_zero, List.set_cons_zero, createAppointment]
  cases h1 : requiredFields body with
  | none => simp [BookingProc.step, h1]
  | some f =>
    obtain ⟨doctor, date, time, reason, type⟩ := f
    cases h2 : findApprovedDoctor doctor db with
    | error e => simp [BookingProc.step, h1, h2]
    | ok u =>
      cases u with
      | none => simp [BookingProc.step, h1, h2]
      | some u =>
        cases h3 : findExistingAppointment doctor date time db with
        | error e => simp [BookingProc.step, h1, h2, h3]
        | ok x =>
          cases x with
          | some x => simp [BookingProc.step, h1, h2, h3]
          | none =>
            cases h4 : newAppointment user doctor date time reason type with
            | error e => simp [BookingProc.step, h1, h2, h3, h4]
            | ok doc => simp [BookingProc.step, h1, h2, h3, h4]

theorem le_foldr_max (l : List Appointment) (a : Appointment) (hmem : a ∈ l) :
    a._id ≤ (l.map (fun b => b._id)).foldr max 0 := by
  induction l with
  | nil => simp at hmem
  | cons b bs ih =>
    simp only [List.map_cons, List.foldr_cons]
    rcases List.mem_cons.1 hmem with rfl | h
    · exact le_max_left _ _
    · exact le_trans (ih h) (le_max_right _ _)

theorem freshId_not_mem (db : Db) : freshId db ∉ db.appointments.map (fun b => b._id) := by
  intro h
  obtain ⟨a, hmem, hid⟩ := List.mem_map.1 h
  have hle : a._id ≤ (db.appointments.map (fun b => b._id)).foldr max 0 :=
    le_foldr_max db.appointments a hmem
  have hid1 : a._id = (db.appointments.map (fun b => b._id)).foldr max 0 + 1 := hid
  rw [hid1] at hle
  exact absurd hle (Nat.not_succ_le_self _)

theorem replaceById_ids (c : Appointment) (l : List Appointment) :
    (replaceById c l).map (fun b => b._id) = l.map (fun b => b._id) := by
  induction l with
  | nil => rfl
  | cons b bs ih =>
    unfold replaceById
    by_cases h : b._id = c._id
    · simp [h]
    · simp [h, ih]

theorem mem_replaceById (c x : Appointment) (l : List Appointment)
    (hx : x ∈ replaceById c l) : x = c ∨ x ∈ l := by
  induction l with
  | nil => simp [replaceById] at hx
  | cons b bs ih =>
    unfold replaceById at hx
    by_cases h : b._id = c._id
    · simp only [h, beq_self_eq_true, if_true, List.mem_cons] at hx
      rcases hx with rfl | hx
      · exact Or.inl rfl
      · exact Or.inr (List.mem_cons_of_mem _ hx)
    · have hb : (b._id == c._id) = false := by simpa using h
      simp only [hb, Bool.false_eq_true, if_false, List.mem_cons] at hx
      rcases hx with rfl | hx
      · exact Or.inr (List.mem_cons_self _ _)
      · rcases ih hx with h1 | h1
        · exact Or.inl h1
        · exact Or.inr (List.mem_cons_of_mem _ h1)

theorem wellFormed_replace (c : Appointment) (db : Db) (hwf : db.WellFormed)
    (hc : typeEnum.contains c.type = true ∧ c.time ≠ "" ∧ c.reason ≠ "") :
    Db.WellFormed { db with appointments := replaceById c db.appointments } := by
  refine ⟨?_, ?_⟩
  · simp only [replaceById_ids]
    exact hwf.1
  · intro x hx
    rcases mem_replaceById c x _ hx with rfl | h
    · exact hc
    · exact hwf.2 x h

theorem validate_fields (c : Appointment) (h : c.validate = true) :
    typeEnum.contains c.type = true ∧ c.time ≠ "" ∧ c.reason ≠ "" := by
  simp only [Appointment.validate, Bool.and_eq_true, bne_iff_ne, ne_eq] at h
  exact ⟨h.1.1.2, h.1.2, h.2⟩

theorem wellFormed_save (c : Appointment) (db : Db) (hwf : db.WellFormed) :
    (Appointment.save c db).1.WellFormed := by
  unfold Appointment.save
  by_cases hv : c.validate = true
  · simp only [hv, if_true]
    exact wellFormed_replace c db hwf (validate_fields c hv)
  · simp only [hv, Bool.false_eq_true, if_false]
    exact hwf

theorem wellFormed_create (doc : Appointment) (db : Db) (hwf : db.WellFormed) :
    (Appointment.create doc db).1.WellFormed := by
  simp only [Appointment.create]
  by_cases hv : Appointment.validate { doc with _id := freshId db } = true
  · simp only [hv, if_true]
    refine ⟨?_, ?_⟩
    · simp only [List.map_append, List.map_cons, List.map_nil]
      apply List.Nodup.append hwf.1 (List.nodup_singleton _)
      simp only [List.disjoint_singleton]
      exact freshId_not_mem db
    · intro x hx
      rcases List.mem_append.1 hx with h | h
      · exact hwf.2 x h
      · simp only [List.mem_singleton] at h
        subst h
        exact validate_fields _ hv
  · simp only [hv, Bool.false_eq_true, if_false]
    exact hwf

theorem findById_mem (id : Cast ObjectId) (db : Db) (a : Appointment)
    (h : Appointment.findById id db = .ok (some a)) : a ∈ db.appointments := by
  cases id with
  | fails => simp [Appointment.findById] at h
  | ok i =>
    simp only [Appointment.findById, Appointment.findOne, Except.ok.injEq] at h
    exact List.mem_of_find?_eq_some h

theorem applySet_fields (body : UpdateBody) (a doc : Appointment)
    (h : applySet body a = .ok doc) (hv : updateValidators body = true)
    (ha : typeEnum.contains a.type = true ∧ a.time ≠ "" ∧ a.reason ≠ "") :
    typeEnum.contains doc.type = true ∧ doc.time ≠ "" ∧ doc.reason ≠ "" := by
  unfold applySet at h
  split at h
  · simp at h
  · simp only [Except.ok.injEq] at h
    subst h
    refine ⟨?_, ha.2.1, ha.2.2⟩
    by_cases ht : truthy body.type = true
    · simp only [updateValidators, ht, Bool.not_true, Bool.false_or, Bool.and_eq_true] at hv
      simp only [ht, if_true]
      exact hv.1
    · simp only [ht, Bool.false_eq_true, if_false]
      exact ha.1

theorem wellFormed_handle (op : Op) (db : Db) (hwf : db.WellFormed) :
    (op.handle db).1.WellFormed := by
  cases op with
  | book user body =>
    simp only [Op.handle, createAppointment]
    repeat' split
    all_goals first | exact hwf | exact wellFormed_create _ db hwf
  | followUp user body =>
    simp only [Op.handle, scheduleFollowUp]
    repeat' split
    all_goals exact hwf
  | cancel user id =>
    simp only [Op.handle, cancelAppointment]
    repeat' split
    all_goals first | exact hwf | exact wellFormed_save _ db hwf
  | setStatus user id status =>
    simp only [Op.handle, updateAppointmentStatus]
    repeat' split
    all_goals first | exact hwf | exact wellFormed_save _ db hwf
  | update user id body today notification =>
    simp only [Op.handle, updateAppointment]
    repeat' split
    all_goals first
      | exact hwf
      | (have hv : updateValidators body = true := by
           have h : ¬ (!updateValidators body) = true := by assumption
           simpa using h
         apply wellFormed_replace _ db hwf
         apply applySet_fields body _ _ (by assumption) hv
         exact hwf.2 _ (findById_mem _ _ _ (by assumption)))
  | doctorUpdate user id status =>
    simp only [Op.handle, doctorUpdateAppointment]
    repeat' split
    all_goals first
      | exact hwf
      | (rename_i appointment hfind
         have hm : appointment ∈ db.appointments := List.mem_of_find?_eq_some hfind
         exact wellFormed_replace _ db hwf (hwf.2 appointment hm))

theorem wellFormed_run (ops : List Op) (db : Db) (hwf : db.WellFormed) :
    (run ops db).WellFormed := by
  induction ops generalizing db with
  | nil => exact hwf
  | cons op ops ih => exact ih _ (wellFormed_handle op db hwf)

theorem wellFormed_empty (users : List User) : (Db.mk users []).WellFormed :=
  ⟨List.nodup_nil, fun _ h => absurd h (List.not_mem_nil _)⟩

theorem scheduleFollowUp_rejects (user : User) (body : FollowUpBody) (db : Db) :
    (scheduleFollowUp user body db).1 = db ∧
      ∃ e, (scheduleFollowUp user body db).2 = .error e := by
  simp only [scheduleFollowUp]
  repeat' split
  all_goals exact ⟨rfl, _, rfl⟩

/-! ## Lemmas on the slot listings and on booking -/

theorem findApprovedDoctor_of_mem (d : ObjectId) (db : Db)
    (happroved : ∃ u ∈ db.users, u._id = d ∧ u.role = "doctor" ∧
      u.verificationStatus = "approved" ∧ u.isActive = true) :
    ∃ u, findApprovedDoctor (.ok d) db = .ok (some u) := by
  obtain ⟨u, hmem, h1, h2, h3, h4⟩ := happroved
  simp only [findApprovedDoctor]
  cases hf : db.users.find? (fun u =>
    u._id == d && u.role == "doctor" && u.verificationStatus == "approved" && u.isActive) with
  | some v => exact ⟨v, rfl⟩
  | none =>
    have := List.find?_eq_none.1 hf u hmem
    simp [h1, h2, h3, h4] at this

theorem bookedTimes_contains (d : ObjectId) (t : Int) (slot : String) (db : Db) :
    ((Appointment.find (fun a => a.doctor == d && a.date == t &&
        (a.status == "pending" || a.status == "confirmed")) db).map
          (fun slot => slot.time)).contains slot =
      db.appointments.any (occupies d t slot) := by
  rw [Bool.eq_iff_iff]
  simp only [Appointment.find, List.contains_iff_exists_mem_beq, List.mem_map, List.mem_filter,
    List.any_eq_true, occupies_iff, Bool.and_eq_true, Bool.or_eq_true, beq_iff_eq]
  constructor
  · rintro ⟨x, ⟨a, ⟨hmem, ⟨⟨h1, h2⟩, h3⟩⟩, rfl⟩, hx⟩
    exact ⟨a, hmem, h1, h2, hx.symm, h3⟩
  · rintro ⟨a, hmem, h1, h2, h3, h4⟩
    exact ⟨a.time, ⟨a, ⟨hmem, ⟨⟨h1, h2⟩, h4⟩⟩, rfl⟩, h3.symm⟩

theorem availableSlots_eq_of_find (user : User) (d : ObjectId) (t : Int) (db : Db) (u : User)
    (hrole : user.role = "doctor") (hu : findApprovedDoctor (.ok d) db = .ok (some u)) :
    availableSlots user (.ok d) (some (.ok t)) db =
      .ok (hourlySlots.filter (fun tick => !db.appointments.any (occupies d t tick))) := by
  simp only [availableSlots, isDoctor, hrole, hu, bookedTimes_contains]
  rfl

theorem availableSlots_eq (user : User) (d : ObjectId) (t : Int) (db : Db)
    (hrole : user.role = "doctor")
    (happroved : ∃ u ∈ db.users, u._id = d ∧ u.role = "doctor" ∧
      u.verificationStatus = "approved" ∧ u.isActive = true) :
    availableSlots user (.ok d) (some (.ok t)) db =
      .ok (hourlySlots.filter (fun tick => !db.appointments.any (occupies d t tick))) := by
  obtain ⟨u, hu⟩ := findApprovedDoctor_of_mem d db happroved
  exact availableSlots_eq_of_find user d t db u hrole hu

theorem hourlySlots_eq :
    hourlySlots = ["09:00", "10:00", "11:00", "12:00", "13:00", "14:00", "15:00", "16:00"] := by
  decide

theorem requiredFields_some (body : BookingBody) (doctor : Cast ObjectId) (date : Cast Int)
    (time reason type : String)
    (h : requiredFields body = some (doctor, date, time, reason, type)) :
    body.doctor = some doctor ∧ body.date = some date ∧ body.time = some time ∧
      body.reason = some reason ∧ body.type = some type := by
  unfold requiredFields at h
  split at h
  · rename_i h1 h2 h3 h4 h5
    split at h
    · simp only [Option.some.injEq, Prod.mk.injEq] at h
      obtain ⟨rfl, rfl, rfl, rfl, rfl⟩ := h
      exact ⟨h1, h2, h3, h4, h5⟩
    · simp at h
  · simp at h

theorem createAppointment_ok_inv (user : User) (body : BookingBody) (db db1 : Db)
    (a : Appointment) (h : createAppointment user body db = (db1, .ok a)) :
    requiredFields body = some (.ok a.doctor, .ok a.date, a.time, a.reason, a.type) ∧
      (∃ u, findApprovedDoctor (.ok a.doctor) db = .ok (some u)) ∧
      Appointment.findOne (occupies a.doctor a.date a.time) db = none ∧
      db1 = Db.mk db.users (db.appointments ++ [a]) ∧
      a.status = "pending" ∧ a.patient = user._id := by
  unfold createAppointment at h
  split at h
  · simp at h
  · rename_i doctor date time reason type hreq
    split at h
    · simp at h
    · simp at h
    · rename_i u hu
      split at h
      · simp at h
      · simp at h
      · rename_i hfree
        split at h
        · simp at h
        · rename_i doc hdoc
          unfold newAppointment at hdoc
          split at hdoc
          · rename_i d t
            simp only [Except.ok.injEq] at hdoc
            subst hdoc
            obtain ⟨rfl, rfl⟩ := create_ok _ _ _ _ h
            simp only [findExistingAppointment, Except.ok.injEq] at hfree
            exact ⟨hreq, ⟨u, hu⟩, hfree, rfl, rfl, rfl⟩
          · simp at hdoc

theorem findApprovedDoctor_map (f : User → User) (doctorId : Cast ObjectId) (db : Db)
    (hf : ∀ u, (f u)._id = u._id ∧ (f u).role = u.role ∧
      (f u).verificationStatus = u.verificationStatus ∧ (f u).isActive = u.isActive) :
    findApprovedDoctor doctorId (Db.mk (db.users.map f) db.appointments) =
      (findApprovedDoctor doctorId db).map (fun o => o.map f) := by
  cases doctorId with
  | fails => rfl
  | ok d =>
    have hp : ((fun u : User => u._id == d && u.role == "doctor" &&
        u.verificationStatus == "approved" && u.isActive) ∘ f) =
        (fun u : User => u._id == d && u.role == "doctor" &&
          u.verificationStatus == "approved" && u.isActive) := by
      funext u
      simp [(hf u).1, (hf u).2.1, (hf u).2.2.1, (hf u).2.2.2]
    simp only [findApprovedDoctor, Except.map, List.find?_map, hp]

theorem availableSlots_map_users (f : User → User) (user : User) (doctorId : Cast ObjectId)
    (date : Option (Cast Int)) (db : Db)
    (hf : ∀ u, (f u)._id = u._id ∧ (f u).role = u.role ∧
      (f u).verificationStatus = u.verificationStatus ∧ (f u).isActive = u.isActive) :
    availableSlots (f user) doctorId date (Db.mk (db.users.map f) db.appointments) =
      availableSlots user doctorId date db := by
  simp only [availableSlots, isDoctor, (hf user).2.1, findApprovedDoctor_map f doctorId db hf,
    Appointment.find]
  cases findApprovedDoctor doctorId db with
  | error e => rfl
  | ok o =>
    cases o with
    | none => rfl
    | some u => rfl

theorem mem_hourlySlots (t : String) (h : t ∈ hourlySlots) :
    ∃ hour, 9 ≤ hour ∧ hour < 17 ∧ t = padStart (toString hour) 2 '0' ++ ":00" ∧
      totalMinutes t = hour * 60 := by
  rw [hourlySlots_eq] at h
  simp only [List.mem_cons, List.mem_singleton, List.not_mem_nil, or_false] at h
  rcases h with rfl | rfl | rfl | rfl | rfl | rfl | rfl | rfl
  · exact ⟨9, by decide, by decide, by decide, by decide⟩
  · exact ⟨10, by decide, by decide, by decide, by decide⟩
  · exact ⟨11, by decide, by decide, by decide, by decide⟩
  · exact ⟨12, by decide, by decide, by decide, by decide⟩
  · exact ⟨13, by decide, by decide, by decide, by decide⟩
  · exact ⟨14, by decide, by decide, by decide, by decide⟩
  · exact ⟨15, by decide, by decide, by decide, by decide⟩
  · exact ⟨16, by decide, by decide, by decide, by decide⟩

theorem availableSlots_subset (user : User) (doctorId : Cast ObjectId)
    (date : Option (Cast Int)) (db : Db) (slots : List String)
    (h : availableSlots user doctorId date db = .ok slots) :
    ∃ p : String → Bool, slots = hourlySlots.filter p := by
  unfold availableSlots at h
  split at h
  · simp at h
  · split at h
    · simp at h
    · split at h
      · simp at h
      · simp at h
      · split at h
        · simp only [Except.ok.injEq] at h
          exact ⟨_, h.symm⟩
        · simp at h

theorem findOne_none_iff (p : Appointment → Bool) (db : Db) :
    Appointment.findOne p db = none ↔ ∀ b ∈ db.appointments, p b = false := by
  simp [Appointment.findOne, List.find?_eq_none]

theorem createAppointment_taken (user : User) (body : BookingBody) (db : Db)
    (d : ObjectId) (t : Int) (time : String)
    (hdoctor : body.doctor = some (.ok d)) (hdate : body.date = some (.ok t))
    (htime : body.time = some time)
    (htaken : ∃ b ∈ db.appointments, occupies d t time b = true) :
    (createAppointment user body db).1 = db ∧
      ∃ e, (createAppointment user body db).2 = .error e := by
  unfold createAppointment
  split
  · exact ⟨rfl, _, rfl⟩
  · rename_i doctor date time1 reason type hreq
    obtain ⟨h1, h2, h3, _, _⟩ := requiredFields_some body _ _ _ _ _ hreq
    rw [hdoctor] at h1
    rw [hdate] at h2
    rw [htime] at h3
    simp only [Option.some.injEq] at h1 h2 h3
    subst h1 h2 h3
    split
    · exact ⟨rfl, _, rfl⟩
    · exact ⟨rfl, _, rfl⟩
    · split
      · exact ⟨rfl, _, rfl⟩
      · exact ⟨rfl, _, rfl⟩
      · rename_i hfree
        simp only [findExistingAppointment, Except.ok.injEq] at hfree
        obtain ⟨b, hb, hocc⟩ := htaken
        have := (findOne_none_iff _ db).1 hfree b hb
        rw [hocc] at this
        exact absurd this (by decide)

theorem ownAvailableSlots_subset (user : User) (date : Option (Cast Int)) (db : Db)
    (slots : List String) (h : ownAvailableSlots user date db = .ok slots) :
    ∃ p : String → Bool, slots = halfHourSlots.filter p := by
  unfold ownAvailableSlots at h
  split at h
  · simp at h
  · split at h
    · simp at h
    · simp at h
    · simp only [Except.ok.injEq] at h
      exact ⟨_, h.symm⟩

theorem filter_ascending (l : List String) (p : String → Bool)
    (hl : (l.map totalMinutes).Pairwise (fun m n => m < n)) :
    ((l.filter p).map totalMinutes).Pairwise (fun m n => m < n) ∧ (l.filter p).Nodup := by
  have hs : List.Sublist ((l.filter p).map totalMinutes) (l.map totalMinutes) :=
    (List.filter_sublist l).map totalMinutes
  have hp := List.Pairwise.sublist hs hl
  refine ⟨hp, ?_⟩
  have hn : ((l.filter p).map totalMinutes).Nodup :=
    List.Pairwise.imp (fun h => Nat.ne_of_lt h) hp
  exact List.Nodup.of_map totalMinutes hn

/-! ## Lemmas on the time pattern, the availability updates and registration -/

theorem halfHourSlots_eq :
    halfHourSlots = ["09:00", "09:30", "10:00", "10:30", "11:00", "11:30", "12:00", "12:30",
      "13:00", "13:30", "14:00", "14:30", "15:00", "15:30", "16:00", "16:30", "17:00"] := by
  decide

theorem create_cases (doc : Appointment) (db : Db) :
    (Appointment.create doc db).1 = db ∨
      ∃ a, (Appointment.create doc db).1 = Db.mk db.users (db.appointments ++ [a]) := by
  simp only [Appointment.create]
  split
  · exact Or.inr ⟨_, rfl⟩
  · exact Or.inl rfl

theorem createAppointment_cases (user : User) (body : BookingBody) (db : Db) :
    (createAppointment user body db).1 = db ∨
      ∃ a, (createAppointment user body db).1 = Db.mk db.users (db.appointments ++ [a]) := by
  unfold createAppointment
  repeat' split
  all_goals first
    | exact Or.inl rfl
    | exact create_cases _ _

theorem bookings_keep (reqs : List (User × BookingBody)) (db : Db) :
    (run (reqs.map (fun r => Op.book r.1 r.2)) db).users = db.users ∧
      ∀ x ∈ db.appointments, x ∈ (run (reqs.map (fun r => Op.book r.1 r.2)) db).appointments := by
  induction reqs generalizing db with
  | nil => exact ⟨rfl, fun x hx => hx⟩
  | cons r rs ih =>
    simp only [List.map_cons, run, List.foldl_cons, Op.handle]
    have ih1 := ih (createAppointment r.1 r.2 db).1
    simp only [run] at ih1
    rcases createAppointment_cases r.1 r.2 db with h | ⟨a, h⟩
    · rw [h] at ih1 ⊢
      exact ih1
    · rw [h] at ih1 ⊢
      exact ⟨ih1.1, fun x hx => ih1.2 x (List.mem_append_left _ hx)⟩

theorem requiredFields_truthy (body : BookingBody) (doctor : Cast ObjectId) (date : Cast Int)
    (time reason type : String)
    (h : requiredFields body = some (doctor, date, time, reason, type)) :
    time ≠ "" ∧ reason ≠ "" ∧ type ≠ "" := by
  unfold requiredFields at h
  split at h
  · split at h
    · rename_i ht
      simp only [Option.some.injEq, Prod.mk.injEq] at h
      obtain ⟨_, _, rfl, rfl, rfl⟩ := h
      simpa [truthy, and_assoc] using ht
    · simp at h
  · simp at h

theorem padded_times_accepted_aux :
    ∀ hour, hour < 24 → ∀ minute, minute < 60 →
      timeRegex (padStart (toString hour) 2 '0' ++ ":" ++ padStart (toString minute) 2 '0') = true ∧
      splitTime (padStart (toString hour) 2 '0' ++ ":" ++ padStart (toString minute) 2 '0') =
        (hour, minute) := by
  decide

theorem isDigit_toNat (c : Char) (h : c.isDigit = true) : 48 ≤ c.toNat ∧ c.toNat ≤ 57 := by
  simp only [Char.isDigit, Bool.and_eq_true, decide_eq_true_eq] at h
  exact ⟨h.1, h.2⟩

theorem char_le_toNat (c d : Char) (h : c ≤ d) : c.toNat ≤ d.toNat := h

theorem isDigit_ne_colon (c : Char) (h : c.isDigit = true) : (c != ':') = true := by
  have := isDigit_toNat c h
  simp only [bne_iff_ne, ne_eq]
  intro hc
  rw [hc] at this
  simp at this

theorem timeRegexChars_form (cs : List Char) (h : timeRegexChars cs = true) :
    (∃ h m1 m2, cs = [h, ':', m1, m2] ∧ h.isDigit = true ∧
        ('0' ≤ m1 ∧ m1 ≤ '5') ∧ m2.isDigit = true) ∨
      (∃ h1 h2 m1 m2, cs = [h1, h2, ':', m1, m2] ∧
        (((h1 = '0' ∨ h1 = '1') ∧ h2.isDigit = true) ∨ (h1 = '2' ∧ '0' ≤ h2 ∧ h2 ≤ '3')) ∧
        ('0' ≤ m1 ∧ m1 ≤ '5') ∧ m2.isDigit = true) := by
  unfold timeRegexChars at h
  split at h
  · rename_i c m1 m2
    simp only [Bool.and_eq_true, decide_eq_true_eq] at h
    exact Or.inl ⟨c, m1, m2, rfl, h.1.1, h.1.2, h.2⟩
  · rename_i h1 h2 m1 m2
    simp only [Bool.and_eq_true, Bool.or_eq_true, beq_iff_eq, decide_eq_true_eq] at h
    exact Or.inr ⟨h1, h2, m1, m2, rfl, h.1.1, h.1.2, h.2⟩
  · simp at h

theorem minutes_value (m1 m2 : Char) (h1 : '0' ≤ m1 ∧ m1 ≤ '5') (h2 : m2.isDigit = true) :
    digitsValue [m1, m2] ≤ 59 := by
  have a1 := char_le_toNat _ _ h1.1
  have a2 := char_le_toNat _ _ h1.2
  have a3 := isDigit_toNat m2 h2
  have e0 : '0'.toNat = 48 := rfl
  have e5 : '5'.toNat = 53 := rfl
  simp only [digitsValue, List.foldl_cons, List.foldl_nil, e0] at *
  omega

theorem timeRegex_bounds (s : String) (h : timeRegex s = true) :
    (splitTime s).1 ≤ 23 ∧ (splitTime s).2 ≤ 59 := by
  obtain ⟨cs⟩ := s
  simp only [timeRegex] at h
  simp only [splitTime]
  rcases timeRegexChars_form cs h with ⟨c, m1, m2, rfl, hc, hm1, hm2⟩ |
    ⟨c1, c2, m1, m2, rfl, hh, hm1, hm2⟩
  · have hne := isDigit_ne_colon c hc
    have hv := isDigit_toNat c hc
    have hm := minutes_value m1 m2 hm1 hm2
    have e0 : '0'.toNat = 48 := rfl
    simp only [List.takeWhile_cons, hne, if_true, List.dropWhile_cons, bne_self_eq_false,
      Bool.false_eq_true, if_false, List.takeWhile_nil, List.drop_succ_cons, List.drop_zero]
    refine ⟨?_, hm⟩
    simp only [digitsValue, List.foldl_cons, List.foldl_nil, e0]
    omega
  · have hm := minutes_value m1 m2 hm1 hm2
    have e0 : '0'.toNat = 48 := rfl
    have e1 : '1'.toNat = 49 := rfl
    have e2 : '2'.toNat = 50 := rfl
    have e3 : '3'.toNat = 51 := rfl
    have ec : ':'.toNat = 58 := rfl
    have hne1 : (c1 != ':') = true := by
      rcases hh with ⟨h | h, _⟩ | ⟨h, _⟩ <;> rw [h] <;> decide
    have hv2 : 48 ≤ c2.toNat ∧ c2.toNat ≤ 57 := by
      rcases hh with ⟨_, h⟩ | ⟨_, h⟩
      · exact isDigit_toNat c2 h
      · have a1 := char_le_toNat _ _ h.1
        have a2 := char_le_toNat _ _ h.2
        rw [e0] at a1
        rw [e3] at a2
        exact ⟨a1, by omega⟩
    have hne2 : (c2 != ':') = true := by
      simp only [bne_iff_ne, ne_eq]
      intro hc
      rw [hc, ec] at hv2
      omega
    simp only [List.takeWhile_cons, hne1, hne2, if_true, List.dropWhile_cons,
      bne_self_eq_false, Bool.false_eq_true, if_false, List.takeWhile_nil,
      List.drop_succ_cons, List.drop_zero]
    refine ⟨?_, hm⟩
    simp only [digitsValue, List.foldl_cons, List.foldl_nil, e0]
    rcases hh with ⟨h | h, _⟩ | ⟨h, h3⟩
    · rw [h, e0]
      omega
    · rw [h, e1]
      omega
    · have a2 := char_le_toNat _ _ h3.2
      rw [e3] at a2
      rw [h, e2]
      omega

theorem digit_of_range (c : Char) (h : '0' ≤ c ∧ c ≤ '5') : c.isDigit = true := by
  have a1 := char_le_toNat _ _ h.1
  have a2 := char_le_toNat _ _ h.2
  have e0 : '0'.toNat = 48 := rfl
  have e5 : '5'.toNat = 53 := rfl
  rw [e0] at a1
  rw [e5] at a2
  simp only [Char.isDigit, Bool.and_eq_true, decide_eq_true_eq]
  exact ⟨a1, by
    have : c.toNat ≤ 57 := by omega
    exact this⟩

theorem updateAvailability_ok (id : ObjectId) (slots : List AvailabilitySlot) (db db1 : Db)
    (tpl : List AvailabilityEntry)
    (h : User.updateAvailability id slots db = (db1, .ok tpl)) :
    slots.all AvailabilitySlot.validate = true ∧ tpl = slots.map AvailabilitySlot.cast := by
  unfold User.updateAvailability at h
  split at h
  · simp at h
  · rename_i hv
    split at h
    · simp at h
    · simp only [Prod.mk.injEq, Except.ok.injEq] at h
      exact ⟨by simpa using hv, h.2.symm⟩

theorem validate_day (slot : AvailabilitySlot) (h : slot.validate = true) :
    slot.cast.day ∈ validDays := by
  simp only [AvailabilitySlot.validate, Bool.and_eq_true] at h
  simpa [AvailabilitySlot.cast] using h.1.1.1.1.2

theorem checkSlots_none (slots : List AvailabilitySlot) (h : checkSlots slots = none) :
    ∀ slot ∈ slots, totalMinutes slot.cast.startTime < totalMinutes slot.cast.endTime := by
  induction slots with
  | nil => intro slot hs; simp at hs
  | cons s rest ih =>
    unfold checkSlots at h
    split at h
    · simp at h
    · split at h
      · simp at h
      · split at h
        · simp at h
        · rename_i hlt
          intro slot hs
          rcases List.mem_cons.1 hs with rfl | hs
          · simpa [AvailabilitySlot.cast] using hlt
          · exact ih h slot hs

theorem updateDoctorAvailability_end_after_start (user : User)
    (availability : Option (List AvailabilitySlot)) (db db1 : Db) (tpl : List AvailabilityEntry)
    (h : updateDoctorAvailability user availability db = (db1, .ok tpl)) :
    ∀ e ∈ tpl, totalMinutes e.startTime < totalMinutes e.endTime := by
  unfold updateDoctorAvailability at h
  split at h
  · simp at h
  · split at h
    · simp at h
    · rename_i slots
      split at h
      · simp at h
      · rename_i hc
        obtain ⟨_, rfl⟩ := updateAvailability_ok _ _ _ _ _ h
        intro e he
        obtain ⟨slot, hs, rfl⟩ := List.mem_map.1 he
        exact checkSlots_none slots hc slot hs

theorem register_existing_email (toLowerCase : String → String) (body : RegisterBody)
    (accounts : List Account) (name email password role : String)
    (hname : body.name = some name) (hemail : body.email = some email)
    (hpassword : body.password = some password) (hrole : body.role = some role)
    (hexists : ∃ a ∈ accounts, a.email = jsTrim (toLowerCase email)) :
    (register toLowerCase body accounts).1 = accounts ∧
      ∃ message, (register toLowerCase body accounts).2 = .error (.app message 400) ∧
        message ≠ "Email already exists" := by
  have hany : accounts.any (fun a => a.email == jsTrim (toLowerCase email)) = true := by
    obtain ⟨a, ha, he⟩ := hexists
    exact List.any_eq_true.2 ⟨a, ha, by simp [he]⟩
  simp only [register, hname, hemail, hpassword, hrole, hany, if_true]
  have hmsg : missingFieldsMessage body ≠ "Email already exists" := by
    intro h
    have := congrArg (fun s => s.data.head?) h
    simp [missingFieldsMessage] at this
  repeat' split
  all_goals first
    | exact ⟨rfl, _, rfl, hmsg⟩
    | exact ⟨rfl, _, rfl, by decide⟩

/-! ## The claims -/

/-- Claim C1.  A booking request with the five required fields that names an
approved, active doctor is rejected with `This time slot is already booked`
(status 400) if and only if an appointment with the same doctor, the same date
and the same time whose status is `pending` or `confirmed` is stored; and
whenever the request is rejected, the database is the one before the request. -/
theorem createAppointment_conflict_iff (user : User) (body : BookingBody) (db : Db)
    (doctor : ObjectId) (date : Cast Int) (time reason type : String)
    (hdoctor : body.doctor = some (.ok doctor)) (hdate : body.date = some date)
    (htime : body.time = some time) (hreason : body.reason = some reason)
    (htype : body.type = some type)
    (htruthy : time ≠ "" ∧ reason ≠ "" ∧ type ≠ "")
    (happroved : ∃ u ∈ db.users, u._id = doctor ∧ u.role = "doctor" ∧
      u.verificationStatus = "approved" ∧ u.isActive = true) :
    ((createAppointment user body db).2 = .error (.app "This time slot is already booked" 400) ↔
      ∃ a ∈ db.appointments, a.doctor = doctor ∧ Cast.ok a.date = date ∧ a.time = time ∧
        (a.status = "pending" ∨ a.status = "confirmed")) ∧
    (∀ e, (createAppointment user body db).2 = .error e →
      (createAppointment user body db).1 = db) := by
  have hreq : requiredFields body = some (.ok doctor, date, time, reason, type) := by
    simp [requiredFields, hdoctor, hdate, htime, hreason, htype, truthy, htruthy]
  have hdoc : ∃ u, findApprovedDoctor (.ok doctor) db = .ok (some u) := by
    obtain ⟨u, hmem, h1, h2, h3, h4⟩ := happroved
    simp only [findApprovedDoctor]
    cases hf : db.users.find? (fun u =>
      u._id == doctor && u.role == "doctor" && u.verificationStatus == "approved" && u.isActive) with
    | some v => exact ⟨v, rfl⟩
    | none =>
      have := List.find?_eq_none.1 hf u hmem
      simp [h1, h2, h3, h4] at this
  obtain ⟨u, hu⟩ := hdoc
  simp only [createAppointment, hreq, hu]
  cases date with
  | fails => simp [findExistingAppointment]
  | ok t =>
    simp only [findExistingAppointment]
    cases hf : Appointment.findOne (occupies doctor t time) db with
    | some a =>
      have := (findExisting_isSome_iff doctor t time db).1 ⟨a, hf⟩
      simpa using this
    | none =>
      have hno : ¬ ∃ a ∈ db.appointments, a.doctor = doctor ∧ a.date = t ∧ a.time = time ∧
          (a.status = "pending" ∨ a.status = "confirmed") := by
        intro h
        obtain ⟨b, hb⟩ := (findExisting_isSome_iff doctor t time db).2 h
        simp [hf] at hb
      simp only [newAppointment, Appointment.create]
      split
      · simpa using hno
      · simpa using hno

/-- Instance of C1: a second request for the slot of a stored pending
appointment. -/
theorem createAppointment_conflict_iff_witness :
    ((createAppointment exOtherPatient exBody (Db.mk exUsers [exAppointment 1 2 "pending"])).2 =
        .error (.app "This time slot is already booked" 400) ↔
      ∃ a ∈ (Db.mk exUsers [exAppointment 1 2 "pending"]).appointments,
        a.doctor = 1 ∧ Cast.ok a.date = Cast.ok 1000 ∧ a.time = "09:00" ∧
          (a.status = "pending" ∨ a.status = "confirmed")) ∧
    (∀ e, (createAppointment exOtherPatient exBody
          (Db.mk exUsers [exAppointment 1 2 "pending"])).2 = .error e →
      (createAppointment exOtherPatient exBody (Db.mk exUsers [exAppointment 1 2 "pending"])).1 =
        Db.mk exUsers [exAppointment 1 2 "pending"]) :=
  createAppointment_conflict_iff exOtherPatient exBody
    (Db.mk exUsers [exAppointment 1 2 "pending"]) 1 (.ok 1000) "09:00" "flu" "online"
    rfl rfl rfl rfl rfl (by decide) ⟨exDoctor, by decide, rfl, rfl, rfl, rfl⟩

/-- Claim C2 fails on the code.  From the store with no appointment: a patient
books a slot and cancels, another patient books the same slot, and then the
first appointment is set back to `pending`, by the doctor through
`PATCH /doctors/appointments/:id` or by its patient through
`PATCH /appointments/:id`.  Neither write checks the slot, and two pending
appointments of the same doctor, date and time are stored. -/
theorem double_booking_reachable :
    run [.book exPatient exBody, .cancel exPatient (.ok 1), .book exOtherPatient exBody,
        .doctorUpdate exDoctor (.ok 1) (some "pending")] exDb0 =
      Db.mk exUsers [exAppointment 1 2 "pending", exAppointment 2 3 "pending"] ∧
    run [.book exPatient exBody, .cancel exPatient (.ok 1), .book exOtherPatient exBody,
        .update exPatient (.ok 1) (exStatusOnly "pending") 0 (.ok ())] exDb0 =
      Db.mk exUsers [exAppointment 1 2 "pending", exAppointment 2 3 "pending"] := by
  decide

/-- Claim C3 fails on the code.  Two booking requests for the same doctor, date
and time whose store operations alternate (both doctor lookups, both slot
checks, both inserts) both succeed: each slot check runs before the insert of
the other request, and two pending appointments of the slot are stored. -/
theorem interleaved_double_booking :
    runSchedule [0, 1, 0, 1, 0, 1]
        [.start exPatient exBody, .start exOtherPatient exBody] exDb0 =
      ([.done (.ok (exAppointment 1 2 "pending")), .done (.ok (exAppointment 2 3 "pending"))],
        Db.mk exUsers [exAppointment 1 2 "pending", exAppointment 2 3 "pending"]) := by
  decide

/-- Claim C4.  A successful booking appends exactly one appointment to the
stored ones, which are left as they were: the appointment it returns, with
status `pending`, the requesting user as patient and the doctor, date, time and
reason of the request. -/
theorem createAppointment_success (user : User) (body : BookingBody) (db db1 : Db)
    (a : Appointment) (h : createAppointment user body db = (db1, .ok a)) :
    db1.appointments = db.appointments ++ [a] ∧ db1.users = db.users ∧
      a.status = "pending" ∧ a.patient = user._id ∧
      body.doctor = some (.ok a.doctor) ∧ body.date = some (.ok a.date) ∧
      body.time = some a.time ∧ body.reason = some a.reason := by
  unfold createAppointment at h
  split at h
  · simp at h
  · rename_i doctor date time reason type hreq
    split at h
    · simp at h
    · simp at h
    · split at h
      · simp at h
      · simp at h
      · split at h
        · simp at h
        · rename_i doc hdoc
          unfold requiredFields at hreq
          split at hreq
          · rename_i d0 dt0 t0 r0 ty0 h1 h2 h3 h4 h5
            split at hreq
            · simp only [Option.some.injEq, Prod.mk.injEq] at hreq
              obtain ⟨rfl, rfl, rfl, rfl, rfl⟩ := hreq
              unfold newAppointment at hdoc
              split at hdoc
              · simp only [Except.ok.injEq] at hdoc
                subst hdoc
                obtain ⟨rfl, rfl⟩ := create_ok _ _ _ _ h
                simp [h1, h2, h3, h4]
              · simp at hdoc
            · simp at hreq
          · simp at hreq

/-- Instance of C4: the booking of `exBody` by `exPatient` succeeds on the store
with no appointment. -/
theorem createAppointment_success_witness :
    createAppointment exPatient exBody exDb0 =
        ({ users := exUsers, appointments := [exAppointment 1 2 "pending"] },
          .ok (exAppointment 1 2 "pending")) ∧
      ([exAppointment 1 2 "pending"] = exDb0.appointments ++ [exAppointment 1 2 "pending"] ∧
        exUsers = exDb0.users ∧
        (exAppointment 1 2 "pending").status = "pending" ∧
        (exAppointment 1 2 "pending").patient = exPatient._id ∧
        exBody.doctor = some (.ok (exAppointment 1 2 "pending").doctor) ∧
        exBody.date = some (.ok (exAppointment 1 2 "pending").date) ∧
        exBody.time = some (exAppointment 1 2 "pending").time ∧
        exBody.reason = some (exAppointment 1 2 "pending").reason) :=
  ⟨by decide, createAppointment_success exPatient exBody exDb0
    { users := exUsers, appointments := [exAppointment 1 2 "pending"] }
    (exAppointment 1 2 "pending") (by decide)⟩

/-- Claim C5.  Status update of a stored appointment whose status is one of the
four of the enum.  A request whose pair (current, requested) is not one of
pending to confirmed, pending to cancelled, confirmed to completed, confirmed to
cancelled is rejected and leaves the database as it was, whoever the actor is.
A request for one of the four pairs by the doctor of the appointment or by an
admin succeeds and stores the requested status, every other appointment being
unchanged.  In particular pending to completed is rejected, and confirm
followed by complete takes a pending appointment to completed.  The document is
one that passes the validators of `type`, `time` and `reason`, which `save`
runs. -/
theorem updateAppointmentStatus_spec (user : User) (requested : Option String) (db : Db)
    (a : Appointment) (hnodup : (db.appointments.map (fun b => b._id)).Nodup)
    (hmem : a ∈ db.appointments) (hstatus : a.status ∈ statusEnum) :
    ((∀ s, requested = some s →
        ¬ ((a.status = "pending" ∧ s = "confirmed") ∨ (a.status = "pending" ∧ s = "cancelled") ∨
           (a.status = "confirmed" ∧ s = "completed") ∨
           (a.status = "confirmed" ∧ s = "cancelled"))) →
      (∃ e, (updateAppointmentStatus user (.ok a._id) requested db).2 = .error e) ∧
        (updateAppointmentStatus user (.ok a._id) requested db).1 = db) ∧
    (∀ s, requested = some s →
      ((a.status = "pending" ∧ s = "confirmed") ∨ (a.status = "pending" ∧ s = "cancelled") ∨
        (a.status = "confirmed" ∧ s = "completed") ∨
        (a.status = "confirmed" ∧ s = "cancelled")) →
      ((user.role = "doctor" ∧ a.doctor = user._id) ∨ user.role = "admin") →
      typeEnum.contains a.type = true → a.time ≠ "" → a.reason ≠ "" →
      updateAppointmentStatus user (.ok a._id) requested db =
        (Db.mk db.users (db.appointments.map
            (fun b => if b._id = a._id then { a with status := s } else b)),
          .ok { a with status := s })) ∧
    (a.status = "pending" →
      (∃ e, (updateAppointmentStatus user (.ok a._id) (some "completed") db).2 = .error e) ∧
        (updateAppointmentStatus user (.ok a._id) (some "completed") db).1 = db) ∧
    (a.status = "pending" →
      ((user.role = "doctor" ∧ a.doctor = user._id) ∨ user.role = "admin") →
      typeEnum.contains a.type = true → a.time ≠ "" → a.reason ≠ "" →
      updateAppointmentStatus user (.ok a._id) (some "completed")
          (updateAppointmentStatus user (.ok a._id) (some "confirmed") db).1 =
        (Db.mk db.users (db.appointments.map
            (fun b => if b._id = a._id then { a with status := "completed" } else b)),
          .ok { a with status := "completed" })) := by
  refine ⟨updateAppointmentStatus_reject user requested db a hnodup hmem hstatus, ?_, ?_, ?_⟩
  · intro s hs htable hactor htype htime hreason
    subst hs
    exact updateAppointmentStatus_accept user s db a hnodup hmem htable
      (actor_doctor_or_admin user a hactor).1 (actor_doctor_or_admin user a hactor).2
      htype htime hreason
  · intro hp
    apply updateAppointmentStatus_reject user (some "completed") db a hnodup hmem hstatus
    intro s hs
    simp only [Option.some.injEq] at hs
    subst hs
    simp [hp]
  · intro hp hactor htype htime hreason
    have hd := (actor_doctor_or_admin user a hactor).1
    have hpt := (actor_doctor_or_admin user a hactor).2
    rw [updateAppointmentStatus_accept user "confirmed" db a hnodup hmem (Or.inl ⟨hp, rfl⟩)
      hd hpt htype htime hreason]
    have h2 := updateAppointmentStatus_accept user "completed"
      (Db.mk db.users (db.appointments.map
          (fun b => if b._id = a._id then { a with status := "confirmed" } else b)))
      { a with status := "confirmed" }
      (by
        have := map_replace_ids { a with status := "confirmed" } db.appointments
        simp only at this
        simp only [this]
        exact hnodup)
      (mem_map_replace a { a with status := "confirmed" } db.appointments hmem rfl)
      (Or.inr (Or.inr (Or.inl ⟨rfl, rfl⟩))) hd hpt htype htime hreason
    simp only at h2
    rw [h2]
    simp only [List.map_map, Prod.mk.injEq, and_true]
    congr 1
    apply List.map_congr_left
    intro b _
    by_cases h : b._id = a._id <;> simp [h]

/-- Instance of C5: the doctor confirms and then completes a pending
appointment. -/
theorem updateAppointmentStatus_spec_witness :
    ((([exAppointment 1 2 "pending"].map (fun b => b._id)).Nodup ∧
        exAppointment 1 2 "pending" ∈ [exAppointment 1 2 "pending"] ∧
        (exAppointment 1 2 "pending").status ∈ statusEnum) ∧
      updateAppointmentStatus exDoctor (.ok 1) (some "confirmed")
          (Db.mk exUsers [exAppointment 1 2 "pending"]) =
        (Db.mk exUsers [exAppointment 1 2 "confirmed"], .ok (exAppointment 1 2 "confirmed"))) ∧
      updateAppointmentStatus exDoctor (.ok 1) (some "completed")
          (updateAppointmentStatus exDoctor (.ok 1) (some "confirmed")
            (Db.mk exUsers [exAppointment 1 2 "pending"])).1 =
        (Db.mk exUsers [exAppointment 1 2 "completed"], .ok (exAppointment 1 2 "completed")) :=
  ⟨⟨⟨by decide, by decide, by decide⟩,
    (updateAppointmentStatus_spec exDoctor (some "confirmed")
      (Db.mk exUsers [exAppointment 1 2 "pending"]) (exAppointment 1 2 "pending")
      (by decide) (by decide) (by decide)).2.1 "confirmed" rfl (Or.inl ⟨rfl, rfl⟩)
      (Or.inl ⟨rfl, rfl⟩) (by decide) (by decide) (by decide)⟩,
    (updateAppointmentStatus_spec exDoctor (some "confirmed")
      (Db.mk exUsers [exAppointment 1 2 "pending"]) (exAppointment 1 2 "pending")
      (by decide) (by decide) (by decide)).2.2.2 rfl
      (Or.inl ⟨rfl, rfl⟩) (by decide) (by decide) (by decide)⟩

/-- Claim C6 fails on the code.  The doctor router writes the requested status
without consulting the table: a completed appointment becomes `pending`.  The
general update writes any status of the enum other than `cancelled`: a pending
appointment becomes `completed`, by its patient. -/
theorem status_written_outside_table :
    doctorUpdateAppointment exDoctor (.ok 1) (some "pending")
        (Db.mk exUsers [exAppointment 1 2 "completed"]) =
      (Db.mk exUsers [exAppointment 1 2 "pending"], .ok (exAppointment 1 2 "pending")) ∧
    updateAppointment exPatient (.ok 1) (exStatusOnly "completed") 0 (.ok ())
        (Db.mk exUsers [exAppointment 1 2 "pending"]) =
      (Db.mk exUsers [exAppointment 1 2 "completed"], .ok (exAppointment 1 2 "completed")) := by
  decide

/-- Claim C7 as stated fails: the patient of a pending appointment requests
`confirmed` through the status update and the request succeeds. -/
theorem patient_confirms_own_appointment :
    updateAppointmentStatus exPatient (.ok 1) (some "confirmed")
        (Db.mk exUsers [exAppointment 1 2 "pending"]) =
      (Db.mk exUsers [exAppointment 1 2 "confirmed"], .ok (exAppointment 1 2 "confirmed")) := by
  decide

/-- Claim C7, amended.  For an actor with role `patient`: when the actor is not
the patient of the appointment, every status update request fails with status
403 and leaves the database as it was; when the actor is the patient of the
appointment, a request for pending to confirmed or confirmed to completed
succeeds and stores the requested status. -/
theorem updateAppointmentStatus_patient (user : User) (db : Db) (a : Appointment)
    (hnodup : (db.appointments.map (fun b => b._id)).Nodup) (hmem : a ∈ db.appointments)
    (hrole : user.role = "patient") :
    (a.patient ≠ user._id → ∀ requested,
      updateAppointmentStatus user (.ok a._id) requested db =
        (db, .error (.app "Not authorized to update this appointment" 403))) ∧
    (a.patient = user._id → ∀ s,
      ((a.status = "pending" ∧ s = "confirmed") ∨ (a.status = "confirmed" ∧ s = "completed")) →
      typeEnum.contains a.type = true → a.time ≠ "" → a.reason ≠ "" →
      updateAppointmentStatus user (.ok a._id) (some s) db =
        (Db.mk db.users (db.appointments.map
            (fun b => if b._id = a._id then { a with status := s } else b)),
          .ok { a with status := s })) := by
  refine ⟨?_, ?_⟩
  · intro hne requested
    have hfind := findById_of_mem a db hnodup hmem
    simp [updateAppointmentStatus, hfind, hrole, hne]
  · intro hown s htable htype htime hreason
    apply updateAppointmentStatus_accept user s db a hnodup hmem _ _ (fun _ => hown)
      htype htime hreason
    · rcases htable with h | h
      · exact Or.inl h
      · exact Or.inr (Or.inr (Or.inl h))
    · intro h
      rw [hrole] at h
      exact absurd h (by decide)

/-- Instance of C7 amended: another patient is refused, the own patient
confirms. -/
theorem updateAppointmentStatus_patient_witness :
    ((([exAppointment 1 2 "pending"].map (fun b => b._id)).Nodup ∧
        exAppointment 1 2 "pending" ∈ [exAppointment 1 2 "pending"] ∧
        exOtherPatient.role = "patient") ∧
      updateAppointmentStatus exOtherPatient (.ok 1) (some "confirmed")
          (Db.mk exUsers [exAppointment 1 2 "pending"]) =
        (Db.mk exUsers [exAppointment 1 2 "pending"],
          .error (.app "Not authorized to update this appointment" 403))) ∧
      updateAppointmentStatus exPatient (.ok 1) (some "confirmed")
          (Db.mk exUsers [exAppointment 1 2 "pending"]) =
        (Db.mk exUsers [exAppointment 1 2 "confirmed"], .ok (exAppointment 1 2 "confirmed")) :=
  ⟨⟨⟨by decide, by decide, rfl⟩,
    (updateAppointmentStatus_patient exOtherPatient (Db.mk exUsers [exAppointment 1 2 "pending"])
      (exAppointment 1 2 "pending") (by decide) (by decide) rfl).1 (by decide)
      (some "confirmed")⟩,
    (updateAppointmentStatus_patient exPatient (Db.mk exUsers [exAppointment 1 2 "pending"])
      (exAppointment 1 2 "pending") (by decide) (by decide) rfl).2 rfl "confirmed"
      (Or.inl ⟨rfl, rfl⟩) (by decide) (by decide) (by decide)⟩

/-- Claim C8 as stated fails: the patient cancel operation answers a patient
who is not the patient of the appointment with `Appointment not found` (status
404), not with a forbidden error. -/
theorem patient_cancel_reports_not_found :
    cancelAppointment exOtherPatient (.ok 1) (Db.mk exUsers [exAppointment 1 2 "pending"]) =
      (Db.mk exUsers [exAppointment 1 2 "pending"], .error (.app "Appointment not found" 404)) := by
  decide

/-- Claim C8, amended.  For a stored appointment and a patient who is not its
patient, the patient cancel operation fails with `Appointment not found`
(status 404) and the status update with target `cancelled` fails with status
403; both leave the database, and so the status of the appointment, as it
was. -/
theorem cancel_by_other_patient (user : User) (db : Db) (a : Appointment)
    (hnodup : (db.appointments.map (fun b => b._id)).Nodup) (hmem : a ∈ db.appointments)
    (hrole : user.role = "patient") (hother : a.patient ≠ user._id) :
    cancelAppointment user (.ok a._id) db =
        (db, .error (.app "Appointment not found" 404)) ∧
      updateAppointmentStatus user (.ok a._id) (some "cancelled") db =
        (db, .error (.app "Not authorized to update this appointment" 403)) := by
  refine ⟨?_, ?_⟩
  · have hfind : Appointment.findOne (fun b => b._id == a._id && b.patient == user._id) db
        = none := by
      unfold Appointment.findOne
      apply find_none_of_nodup _ a _ hnodup hmem
      · simp [hother]
      · intro b hb
        simp only [Bool.and_eq_true, beq_iff_eq] at hb
        exact hb.1
    simp [cancelAppointment, isPatient, hrole, hfind]
  · have hfind := findById_of_mem a db hnodup hmem
    simp [updateAppointmentStatus, hfind, hrole, hother]

/-- Instance of C8 amended: `exOtherPatient` on the pending appointment of
`exPatient`. -/
theorem cancel_by_other_patient_witness :
    (([exAppointment 1 2 "pending"].map (fun b => b._id)).Nodup ∧
      exAppointment 1 2 "pending" ∈ [exAppointment 1 2 "pending"] ∧
      exOtherPatient.role = "patient" ∧ (exAppointment 1 2 "pending").patient ≠ exOtherPatient._id) ∧
    (cancelAppointment exOtherPatient (.ok 1) (Db.mk exUsers [exAppointment 1 2 "pending"]) =
        (Db.mk exUsers [exAppointment 1 2 "pending"],
          .error (.app "Appointment not found" 404)) ∧
      updateAppointmentStatus exOtherPatient (.ok 1) (some "cancelled")
          (Db.mk exUsers [exAppointment 1 2 "pending"]) =
        (Db.mk exUsers [exAppointment 1 2 "pending"],
          .error (.app "Not authorized to update this appointment" 403))) :=
  ⟨⟨by decide, by decide, rfl, by decide⟩,
    cancel_by_other_patient exOtherPatient (Db.mk exUsers [exAppointment 1 2 "pending"])
      (exAppointment 1 2 "pending") (by decide) (by decide) rfl (by decide)⟩

/-- Claim C9.  For a stored appointment whose status is `cancelled` or
`completed`, a cancel request by its patient is rejected with status 400 (the
invalid-transition rejection of the code), through the patient cancel operation
and through the status update with target `cancelled`; the database is left as
it was, and so after any number of repetitions the database and the rejection
are the same. -/
theorem cancel_terminal_rejected (user : User) (db : Db) (a : Appointment)
    (hnodup : (db.appointments.map (fun b => b._id)).Nodup) (hmem : a ∈ db.appointments)
    (hrole : user.role = "patient") (hown : a.patient = user._id)
    (hterm : a.status = "cancelled" ∨ a.status = "completed") :
    cancelAppointment user (.ok a._id) db =
        (db, .error (.app (if a.status = "cancelled" then "Appointment is already cancelled"
          else "Cannot cancel a completed appointment") 400)) ∧
      updateAppointmentStatus user (.ok a._id) (some "cancelled") db =
        (db, .error (.app ("Cannot change status from " ++ a.status ++ " to cancelled") 400)) ∧
      ∀ n : Nat,
        (fun d => (cancelAppointment user (.ok a._id) d).1)^[n] db = db ∧
        cancelAppointment user (.ok a._id)
            ((fun d => (cancelAppointment user (.ok a._id) d).1)^[n] db) =
          (db, .error (.app (if a.status = "cancelled" then "Appointment is already cancelled"
            else "Cannot cancel a completed appointment") 400)) ∧
        (fun d => (updateAppointmentStatus user (.ok a._id) (some "cancelled") d).1)^[n] db = db := by
  have h1 := cancel_terminal_once user db a hnodup hmem hrole hown hterm
  have h2 : updateAppointmentStatus user (.ok a._id) (some "cancelled") db =
      (db, .error (.app ("Cannot change status from " ++ a.status ++ " to cancelled") 400)) := by
    have hfind := findById_of_mem a db hnodup hmem
    rcases hterm with h | h <;>
      simp [updateAppointmentStatus, hfind, hrole, hown, h, validTransitions]
  refine ⟨h1, h2, ?_⟩
  intro n
  have hfix : (fun d => (cancelAppointment user (.ok a._id) d).1) db = db := by
    simp only [h1]
  have hfix2 : (fun d => (updateAppointmentStatus user (.ok a._id) (some "cancelled") d).1) db
      = db := by
    simp only [h2]
  rw [Function.iterate_fixed hfix n, Function.iterate_fixed hfix2 n]
  exact ⟨rfl, h1, rfl⟩

/-- Instance of C9: cancelling a completed appointment. -/
theorem cancel_terminal_rejected_witness :
    (([exAppointment 1 2 "completed"].map (fun b => b._id)).Nodup ∧
      exAppointment 1 2 "completed" ∈ [exAppointment 1 2 "completed"] ∧
      exPatient.role = "patient" ∧ (exAppointment 1 2 "completed").patient = exPatient._id ∧
      ((exAppointment 1 2 "completed").status = "cancelled" ∨
        (exAppointment 1 2 "completed").status = "completed")) ∧
    cancelAppointment exPatient (.ok 1) (Db.mk exUsers [exAppointment 1 2 "completed"]) =
      (Db.mk exUsers [exAppointment 1 2 "completed"],
        .error (.app "Cannot cancel a completed appointment" 400)) :=
  ⟨⟨by decide, by decide, rfl, rfl, Or.inr rfl⟩,
    (cancel_terminal_rejected exPatient (Db.mk exUsers [exAppointment 1 2 "completed"])
      (exAppointment 1 2 "completed") (by decide) (by decide) rfl rfl (Or.inr rfl)).1⟩

/-- Claim C10.  When the patient cancel operation succeeds, the store holds the
same number of appointments and the same users; the appointment it returns is a
stored appointment of the requesting patient with only the status changed, to
`cancelled`; it takes the place of that appointment, and every other
appointment is unchanged. -/
theorem cancelAppointment_success (user : User) (id : Cast ObjectId) (db db1 : Db)
    (c : Appointment) (hnodup : (db.appointments.map (fun b => b._id)).Nodup)
    (h : cancelAppointment user id db = (db1, .ok c)) :
    db1.appointments.length = db.appointments.length ∧ db1.users = db.users ∧
      ∃ a ∈ db.appointments, id = .ok a._id ∧ a.patient = user._id ∧
        c = { a with status := "cancelled" } ∧
        db1.appointments = db.appointments.map (fun b => if b._id = a._id then c else b) := by
  unfold cancelAppointment at h
  split at h
  · simp at h
  · split at h
    · simp at h
    · rename_i i
      split at h
      · simp at h
      · rename_i a hfind
        split at h
        · simp at h
        · split at h
          · simp at h
          · obtain ⟨rfl, rfl⟩ := save_ok _ _ _ _ h
            have hmem : a ∈ db.appointments := List.mem_of_find?_eq_some hfind
            have hp := List.find?_some hfind
            simp only [Bool.and_eq_true, beq_iff_eq] at hp
            refine ⟨by simp [replaceById_length], rfl, a, hmem, by rw [hp.1], hp.2, rfl, ?_⟩
            exact replaceById_eq_map _ _ hnodup

/-- Instance of C10: cancelling one of two stored appointments. -/
theorem cancelAppointment_success_witness :
    (([exAppointment 1 2 "pending", exAppointment 2 3 "confirmed"].map
        (fun b => b._id)).Nodup ∧
      cancelAppointment exPatient (.ok 1)
          (Db.mk exUsers [exAppointment 1 2 "pending", exAppointment 2 3 "confirmed"]) =
        (Db.mk exUsers [exAppointment 1 2 "cancelled", exAppointment 2 3 "confirmed"],
          .ok (exAppointment 1 2 "cancelled"))) ∧
    ([exAppointment 1 2 "cancelled", exAppointment 2 3 "confirmed"].length =
        [exAppointment 1 2 "pending", exAppointment 2 3 "confirmed"].length ∧
      exUsers = exUsers ∧
      ∃ a ∈ [exAppointment 1 2 "pending", exAppointment 2 3 "confirmed"],
        Cast.ok 1 = Cast.ok a._id ∧ a.patient = exPatient._id ∧
        exAppointment 1 2 "cancelled" = { a with status := "cancelled" } ∧
        [exAppointment 1 2 "cancelled", exAppointment 2 3 "confirmed"] =
          [exAppointment 1 2 "pending", exAppointment 2 3 "confirmed"].map
            (fun b => if b._id = a._id then exAppointment 1 2 "cancelled" else b)) :=
  ⟨⟨by decide, by decide⟩,
    cancelAppointment_success exPatient (.ok 1)
      (Db.mk exUsers [exAppointment 1 2 "pending", exAppointment 2 3 "confirmed"])
      (Db.mk exUsers [exAppointment 1 2 "cancelled", exAppointment 2 3 "confirmed"])
      (exAppointment 1 2 "cancelled") (by decide) (by decide)⟩

/-- Claim C11 as stated fails: for a doctor whose availability is Monday 09:00 to
12:00 with a break from 10:00 to 10:30 and who has no booking, the listing for a
Monday is the eight hourly slots from 09:00 to 16:00, not `09:00, 11:00`. -/
theorem template_listing_is_fixed_grid :
    exTemplateDoctor.availability =
        [AvailabilityEntry.mk "monday" "09:00" "12:00" true [BreakTime.mk "10:00" "10:30"]] ∧
      exTemplateDb.appointments = [] ∧
      availableSlots exDoctor (.ok 4) (some (.ok exMonday)) exTemplateDb =
        .ok ["09:00", "10:00", "11:00", "12:00", "13:00", "14:00", "15:00", "16:00"] ∧
      availableSlots exDoctor (.ok 4) (some (.ok exMonday)) exTemplateDb ≠
        .ok ["09:00", "11:00"] := by
  decide

/-- Claim C11, amended.  For a requesting doctor and an approved, active doctor
the slot listing is the list of the ticks 09:00, 10:00, ..., 16:00 (window 09:00
to 17:00 and duration 60 minutes, the same for every doctor, whatever the
availability), minus the ticks that are the time of a pending or confirmed
appointment of the doctor on the date. -/
theorem availableSlots_fixed_grid (user : User) (d : ObjectId) (t : Int) (db : Db)
    (hrole : user.role = "doctor")
    (happroved : ∃ u ∈ db.users, u._id = d ∧ u.role = "doctor" ∧
      u.verificationStatus = "approved" ∧ u.isActive = true) :
    availableSlots user (.ok d) (some (.ok t)) db =
        .ok (["09:00", "10:00", "11:00", "12:00", "13:00", "14:00", "15:00", "16:00"].filter
          (fun tick => !db.appointments.any (fun a => a.doctor == d && a.date == t &&
            a.time == tick && (a.status == "pending" || a.status == "confirmed")))) ∧
      ["09:00", "10:00", "11:00", "12:00", "13:00", "14:00", "15:00", "16:00"].map totalMinutes =
        (List.range 8).map (fun k => 9 * 60 + k * 60) ∧
      ∀ k, k < 8 → 9 * 60 + k * 60 + 60 ≤ 17 * 60 := by
  refine ⟨?_, by decide, by omega⟩
  rw [availableSlots_eq user d t db hrole happroved, hourlySlots_eq]
  rfl

/-- Instance of C11 amended: the doctor with the Monday template. -/
theorem availableSlots_fixed_grid_witness :
    (exDoctor.role = "doctor" ∧ ∃ u ∈ exTemplateDb.users, u._id = 4 ∧ u.role = "doctor" ∧
      u.verificationStatus = "approved" ∧ u.isActive = true) ∧
    availableSlots exDoctor (.ok 4) (some (.ok exMonday)) exTemplateDb =
      .ok (["09:00", "10:00", "11:00", "12:00", "13:00", "14:00", "15:00", "16:00"].filter
        (fun tick => !exTemplateDb.appointments.any (fun a => a.doctor == 4 &&
          a.date == exMonday && a.time == tick &&
            (a.status == "pending" || a.status == "confirmed")))) :=
  ⟨⟨rfl, exTemplateDoctor, by decide, rfl, rfl, rfl, rfl⟩,
    (availableSlots_fixed_grid exDoctor 4 exMonday exTemplateDb rfl
      ⟨exTemplateDoctor, by decide, rfl, rfl, rfl, rfl⟩).1⟩

/-- Claim C12 as stated fails: the doctor has a break from 10:00 to 10:30 and the
listing returns 10:00, whose interval from 10:00 to 11:00 meets the break. -/
theorem break_tick_listed :
    exTemplateDoctor.availability =
        [AvailabilityEntry.mk "monday" "09:00" "12:00" true [BreakTime.mk "10:00" "10:30"]] ∧
      (∃ slots, availableSlots exDoctor (.ok 4) (some (.ok exMonday)) exTemplateDb = .ok slots ∧
        "10:00" ∈ slots) ∧
      totalMinutes "10:00" < totalMinutes "10:30" ∧
      totalMinutes "10:00" < totalMinutes "10:00" + 60 := by
  refine ⟨rfl, ⟨_, rfl, by decide⟩, by decide, by decide⟩

/-- Claim C12, amended.  Every slot the listing returns is one of the hourly
ticks from 09:00 to 16:00, so that its interval of 60 minutes lies in the window
from 09:00 to 17:00; and the listing does not read the break intervals: it is
the same whatever breaks the availability entries of the users hold. -/
theorem availableSlots_within_window (user : User) (doctorId : Cast ObjectId)
    (date : Option (Cast Int)) (db : Db) :
    (∀ slots, availableSlots user doctorId date db = .ok slots → ∀ t ∈ slots,
      ∃ hour, 9 ≤ hour ∧ hour < 17 ∧ t = padStart (toString hour) 2 '0' ++ ":00" ∧
        totalMinutes t = hour * 60 ∧ 9 * 60 ≤ totalMinutes t ∧
        totalMinutes t + 60 ≤ 17 * 60) ∧
    (∀ g : AvailabilityEntry → List BreakTime,
      availableSlots user doctorId date
          (Db.mk (db.users.map (fun u => User.mk u._id u.role u.verificationStatus u.isActive
            (u.availability.map (fun e =>
              AvailabilityEntry.mk e.day e.startTime e.endTime e.isAvailable (g e)))))
            db.appointments) =
        availableSlots user doctorId date db) := by
  refine ⟨?_, ?_⟩
  · intro slots h t ht
    obtain ⟨p, rfl⟩ := availableSlots_subset user doctorId date db slots h
    obtain ⟨hour, h1, h2, h3, h4⟩ := mem_hourlySlots t (List.mem_filter.1 ht).1
    exact ⟨hour, h1, h2, h3, h4, by omega, by omega⟩
  · intro g
    have h := availableSlots_map_users
      (fun u => User.mk u._id u.role u.verificationStatus u.isActive
        (u.availability.map (fun e =>
          AvailabilityEntry.mk e.day e.startTime e.endTime e.isAvailable (g e))))
      user doctorId date db (fun u => ⟨rfl, rfl, rfl, rfl⟩)
    rw [← h]
    simp only [availableSlots, isDoctor]

/-- Instance of C12 amended: the slot 10:00 of the doctor with the Monday
template. -/
theorem availableSlots_within_window_witness :
    availableSlots exDoctor (.ok 4) (some (.ok exMonday)) exTemplateDb =
        .ok ["09:00", "10:00", "11:00", "12:00", "13:00", "14:00", "15:00", "16:00"] ∧
      ∃ hour, 9 ≤ hour ∧ hour < 17 ∧ "10:00" = padStart (toString hour) 2 '0' ++ ":00" ∧
        totalMinutes "10:00" = hour * 60 ∧ 9 * 60 ≤ totalMinutes "10:00" ∧
        totalMinutes "10:00" + 60 ≤ 17 * 60 :=
  ⟨by decide,
    (availableSlots_within_window exDoctor (.ok 4) (some (.ok exMonday)) exTemplateDb).1
      ["09:00", "10:00", "11:00", "12:00", "13:00", "14:00", "15:00", "16:00"] (by decide)
      "10:00" (by decide)⟩

/-- Claim C13 as stated fails: a doctor with no availability entry, and a doctor
whose Monday entry has `isAvailable` false, both get the eight hourly slots
listed. -/
theorem unavailable_day_listed :
    exDoctor.availability = [] ∧
      availableSlots exDoctor (.ok 1) (some (.ok exMonday)) exTemplateDb =
        .ok ["09:00", "10:00", "11:00", "12:00", "13:00", "14:00", "15:00", "16:00"] ∧
      exClosedDoctor.availability = [AvailabilityEntry.mk "monday" "09:00" "12:00" false []] ∧
      availableSlots exDoctor (.ok 5) (some (.ok exMonday)) exTemplateDb =
        .ok ["09:00", "10:00", "11:00", "12:00", "13:00", "14:00", "15:00", "16:00"] := by
  decide

/-- Claim C13, amended.  The slot listing does not read the availability: it is
the same whatever availability the users hold.  For a requesting doctor and an
approved, active doctor with no pending or confirmed appointment on the date it
is the eight hourly slots from 09:00 to 16:00. -/
theorem availableSlots_ignores_availability (user : User) (d : ObjectId) (t : Int) (db : Db) :
    (∀ f : User → List AvailabilityEntry,
      availableSlots (User.mk user._id user.role user.verificationStatus user.isActive (f user))
          (.ok d) (some (.ok t))
          (Db.mk (db.users.map (fun u =>
            User.mk u._id u.role u.verificationStatus u.isActive (f u))) db.appointments) =
        availableSlots user (.ok d) (some (.ok t)) db) ∧
    (user.role = "doctor" →
      (∃ u ∈ db.users, u._id = d ∧ u.role = "doctor" ∧ u.verificationStatus = "approved" ∧
        u.isActive = true) →
      (∀ a ∈ db.appointments, a.doctor = d → a.date = t →
        a.status ≠ "pending" ∧ a.status ≠ "confirmed") →
      availableSlots user (.ok d) (some (.ok t)) db =
        .ok ["09:00", "10:00", "11:00", "12:00", "13:00", "14:00", "15:00", "16:00"]) := by
  refine ⟨?_, ?_⟩
  · intro f
    exact availableSlots_map_users
      (fun u => User.mk u._id u.role u.verificationStatus u.isActive (f u))
      user (.ok d) (some (.ok t)) db (fun u => ⟨rfl, rfl, rfl, rfl⟩)
  · intro hrole happroved hfree
    rw [availableSlots_eq user d t db hrole happroved, ← hourlySlots_eq]
    congr 1
    apply List.filter_eq_self.2
    intro tick _
    simp only [Bool.not_eq_true', List.any_eq_false, occupies_iff, not_and]
    intro a hmem h1 h2 _ h4
    have := hfree a hmem h1 h2
    rcases h4 with h | h
    · exact this.1 h
    · exact this.2 h

/-- Instance of C13 amended: the doctor whose Monday entry has `isAvailable`
false. -/
theorem availableSlots_ignores_availability_witness :
    (exDoctor.role = "doctor" ∧
      (∃ u ∈ exTemplateDb.users, u._id = 5 ∧ u.role = "doctor" ∧
        u.verificationStatus = "approved" ∧ u.isActive = true) ∧
      ∀ a ∈ exTemplateDb.appointments, a.doctor = 5 → a.date = exMonday →
        a.status ≠ "pending" ∧ a.status ≠ "confirmed") ∧
    availableSlots exDoctor (.ok 5) (some (.ok exMonday)) exTemplateDb =
      .ok ["09:00", "10:00", "11:00", "12:00", "13:00", "14:00", "15:00", "16:00"] :=
  ⟨⟨rfl, ⟨exClosedDoctor, by decide, rfl, rfl, rfl, rfl⟩, by decide⟩,
    (availableSlots_ignores_availability exDoctor 5 exMonday exTemplateDb).2 rfl
      ⟨exClosedDoctor, by decide, rfl, rfl, rfl, rfl⟩ (by decide)⟩

/-- Claim C14 as stated fails: with today at 2000 and the date at 1000, before
today, the listing of a doctor without booking is the eight hourly slots. -/
theorem past_date_listed :
    (1000 : Int) < 2000 ∧
      availableSlots exDoctor (.ok 1) (some (.ok 1000)) exDb0 =
        .ok ["09:00", "10:00", "11:00", "12:00", "13:00", "14:00", "15:00", "16:00"] := by
  decide

/-- Claim C14, amended.  For a date strictly before today the slot listing is
computed as for any date: for a requesting doctor and an approved, active doctor
it returns a list, which is empty exactly when each of the eight hourly ticks is
the time of a pending or confirmed appointment of the doctor on that date. -/
theorem availableSlots_past_date (user : User) (d : ObjectId) (today t : Int) (db : Db)
    (_hpast : t < today) (hrole : user.role = "doctor")
    (happroved : ∃ u ∈ db.users, u._id = d ∧ u.role = "doctor" ∧
      u.verificationStatus = "approved" ∧ u.isActive = true) :
    ∃ slots, availableSlots user (.ok d) (some (.ok t)) db = .ok slots ∧
      (slots = [] ↔
        ∀ tick ∈ ["09:00", "10:00", "11:00", "12:00", "13:00", "14:00", "15:00", "16:00"],
          ∃ a ∈ db.appointments, a.doctor = d ∧ a.date = t ∧ a.time = tick ∧
            (a.status = "pending" ∨ a.status = "confirmed")) := by
  refine ⟨_, availableSlots_eq user d t db hrole happroved, ?_⟩
  rw [← hourlySlots_eq]
  simp only [List.filter_eq_nil_iff, Bool.not_eq_true', Bool.not_eq_false, List.any_eq_true,
    occupies_iff]

/-- Instance of C14 amended: today at 2000, the date at 1000. -/
theorem availableSlots_past_date_witness :
    ((1000 : Int) < 2000 ∧ exDoctor.role = "doctor" ∧
      ∃ u ∈ exDb0.users, u._id = 1 ∧ u.role = "doctor" ∧ u.verificationStatus = "approved" ∧
        u.isActive = true) ∧
    ∃ slots, availableSlots exDoctor (.ok 1) (some (.ok 1000)) exDb0 = .ok slots ∧
      (slots = [] ↔
        ∀ tick ∈ ["09:00", "10:00", "11:00", "12:00", "13:00", "14:00", "15:00", "16:00"],
          ∃ a ∈ exDb0.appointments, a.doctor = 1 ∧ a.date = 1000 ∧ a.time = tick ∧
            (a.status = "pending" ∨ a.status = "confirmed")) :=
  ⟨⟨by decide, rfl, exDoctor, by decide, rfl, rfl, rfl, rfl⟩,
    availableSlots_past_date exDoctor 1 2000 1000 exDb0 (by decide) rfl
      ⟨exDoctor, by decide, rfl, rfl, rfl, rfl⟩⟩

/-- Claim C15 fails on the code.  With today at 2000, the validator that the
general update runs rejects the date 1000 as being in the past, and the booking
handler, which runs no validator, accepts a request for that date and stores the
appointment. -/
theorem past_date_booking_accepted :
    exBody.date = some (.ok 1000) ∧
      validateAppointmentData
          { date := some (.ok 1000), startTime := none, endTime := none, type := none,
            notes := none, symptoms := none, status := none, priority := none } true 2000 =
        some "Appointment date cannot be in the past" ∧
      createAppointment exPatient exBody exDb0 =
        (Db.mk exUsers [exAppointment 1 2 "pending"], .ok (exAppointment 1 2 "pending")) := by
  decide

/-- Claim C16 as stated fails: the listing of the doctor for the date is the
eight hourly slots, and a booking request for the time 09:17 succeeds. -/
theorem off_grid_booking_accepted :
    availableSlots exDoctor (.ok 1) (some (.ok 1000)) exDb0 =
        .ok ["09:00", "10:00", "11:00", "12:00", "13:00", "14:00", "15:00", "16:00"] ∧
      "09:17" ∉ ["09:00", "10:00", "11:00", "12:00", "13:00", "14:00", "15:00", "16:00"] ∧
      (createAppointment exPatient
          { doctor := some (.ok 1), date := some (.ok 1000), time := some "09:17",
            reason := some "flu", type := some "online" } exDb0).2 =
        .ok { _id := 1, patient := 2, doctor := 1, date := 1000, time := "09:17",
              reason := "flu", status := "pending", type := "online", notes := none,
              followUpDate := none } := by
  decide

/-- Claim C16, amended.  The time of a successfully booked appointment is not
the time of a pending or confirmed appointment of that doctor and date stored
before the booking; so when it is one of the hourly ticks it is one of the slots
the listing returns before the booking.  A booking request whose time is the
time of such an appointment is rejected and leaves the database as it was. -/
theorem createAppointment_slot_free (user : User) (body : BookingBody) (db : Db) :
    (∀ db1 a, createAppointment user body db = (db1, .ok a) →
      (∀ b ∈ db.appointments, ¬ (b.doctor = a.doctor ∧ b.date = a.date ∧ b.time = a.time ∧
        (b.status = "pending" ∨ b.status = "confirmed"))) ∧
      (∀ caller : User, caller.role = "doctor" → a.time ∈ hourlySlots →
        ∃ slots, availableSlots caller (.ok a.doctor) (some (.ok a.date)) db = .ok slots ∧
          a.time ∈ slots)) ∧
    (∀ d t time, body.doctor = some (.ok d) → body.date = some (.ok t) →
      body.time = some time →
      (∃ b ∈ db.appointments, b.doctor = d ∧ b.date = t ∧ b.time = time ∧
        (b.status = "pending" ∨ b.status = "confirmed")) →
      (createAppointment user body db).1 = db ∧
        ∃ e, (createAppointment user body db).2 = .error e) := by
  refine ⟨?_, ?_⟩
  · intro db1 a h
    obtain ⟨_, ⟨u, hu⟩, hfree, _, _, _⟩ := createAppointment_ok_inv user body db db1 a h
    have hnone := (findOne_none_iff _ db).1 hfree
    refine ⟨?_, ?_⟩
    · intro b hb hocc
      have := hnone b hb
      rw [(occupies_iff a.doctor a.date a.time b).2 hocc] at this
      exact absurd this (by decide)
    · intro caller hrole hgrid
      refine ⟨_, availableSlots_eq_of_find caller a.doctor a.date db u hrole hu, ?_⟩
      · apply List.mem_filter.2
        refine ⟨hgrid, ?_⟩
        simp only [Bool.not_eq_true', List.any_eq_false]
        intro b hb
        simp [hnone b hb]
  · intro d t time hdoctor hdate htime htaken
    obtain ⟨b, hb, hocc⟩ := htaken
    exact createAppointment_taken user body db d t time hdoctor hdate htime
      ⟨b, hb, (occupies_iff d t time b).2 hocc⟩

/-- Instance of C16 amended: the booking of 09:00, listed before the booking, and
a second request for it. -/
theorem createAppointment_slot_free_witness :
    (createAppointment exPatient exBody exDb0 =
        (Db.mk exUsers [exAppointment 1 2 "pending"], .ok (exAppointment 1 2 "pending")) ∧
      exDoctor.role = "doctor" ∧ (exAppointment 1 2 "pending").time ∈ hourlySlots) ∧
    (∃ slots, availableSlots exDoctor (.ok 1) (some (.ok 1000)) exDb0 = .ok slots ∧
      "09:00" ∈ slots) ∧
    ((createAppointment exOtherPatient exBody (Db.mk exUsers [exAppointment 1 2 "pending"])).1 =
        Db.mk exUsers [exAppointment 1 2 "pending"] ∧
      ∃ e, (createAppointment exOtherPatient exBody
        (Db.mk exUsers [exAppointment 1 2 "pending"])).2 = .error e) :=
  ⟨⟨by decide, rfl, by decide⟩,
    ((createAppointment_slot_free exPatient exBody exDb0).1
      (Db.mk exUsers [exAppointment 1 2 "pending"]) (exAppointment 1 2 "pending")
      (by decide)).2 exDoctor rfl (by decide),
    (createAppointment_slot_free exOtherPatient exBody
      (Db.mk exUsers [exAppointment 1 2 "pending"])).2 1 1000 "09:00" rfl rfl rfl
      ⟨exAppointment 1 2 "pending", by decide, rfl, rfl, rfl, Or.inl rfl⟩⟩

/-- Claim C17.  For a requesting doctor and an approved, active doctor the
per-doctor listing returns a list of candidate ticks in which a candidate tick
is missing if and only if a stored appointment of the doctor on the date with
status `pending` or `confirmed` has the tick as its time; a tick that only
`cancelled` or `completed` appointments hold is listed. -/
theorem availableSlots_omits_iff (user : User) (d : ObjectId) (t : Int) (db : Db)
    (hrole : user.role = "doctor")
    (happroved : ∃ u ∈ db.users, u._id = d ∧ u.role = "doctor" ∧
      u.verificationStatus = "approved" ∧ u.isActive = true) :
    ∃ slots, availableSlots user (.ok d) (some (.ok t)) db = .ok slots ∧
      (∀ tick ∈ slots, tick ∈ hourlySlots) ∧
      (∀ tick ∈ hourlySlots, (tick ∉ slots ↔
        ∃ a ∈ db.appointments, a.doctor = d ∧ a.date = t ∧
          (a.status = "pending" ∨ a.status = "confirmed") ∧ a.time = tick)) ∧
      (∀ tick ∈ hourlySlots,
        (∀ a ∈ db.appointments, a.doctor = d → a.date = t → a.time = tick →
          a.status = "cancelled" ∨ a.status = "completed") → tick ∈ slots) := by
  refine ⟨_, availableSlots_eq user d t db hrole happroved, ?_, ?_, ?_⟩
  · intro tick h
    exact (List.mem_filter.1 h).1
  · intro tick hgrid
    simp only [List.mem_filter, hgrid, true_and, Bool.not_eq_true', Bool.not_eq_false,
      List.any_eq_true, occupies_iff]
    constructor
    · rintro ⟨a, hmem, h1, h2, h3, h4⟩
      exact ⟨a, hmem, h1, h2, h4, h3⟩
    · rintro ⟨a, hmem, h1, h2, h3, h4⟩
      exact ⟨a, hmem, h1, h2, h4, h3⟩
  · intro tick hgrid hterminal
    apply List.mem_filter.2
    refine ⟨hgrid, ?_⟩
    simp only [Bool.not_eq_true', List.any_eq_false, occupies_iff, not_and]
    intro a hmem h1 h2 h3 h4
    rcases hterminal a hmem h1 h2 h3 with h | h <;> rcases h4 with h5 | h5 <;>
      rw [h] at h5 <;> exact absurd h5 (by decide)

/-- Instance of C17: a cancelled and a pending appointment at 09:00. -/
theorem availableSlots_omits_iff_witness :
    (exDoctor.role = "doctor" ∧ ∃ u ∈ exUsers, u._id = 1 ∧ u.role = "doctor" ∧
      u.verificationStatus = "approved" ∧ u.isActive = true) ∧
    availableSlots exDoctor (.ok 1) (some (.ok 1000))
        (Db.mk exUsers [exAppointment 1 2 "cancelled", exAppointment 2 3 "pending"]) =
      .ok ["10:00", "11:00", "12:00", "13:00", "14:00", "15:00", "16:00"] ∧
    ∃ slots, availableSlots exDoctor (.ok 1) (some (.ok 1000))
        (Db.mk exUsers [exAppointment 1 2 "cancelled", exAppointment 2 3 "pending"]) =
          .ok slots ∧
      (∀ tick ∈ slots, tick ∈ hourlySlots) ∧
      (∀ tick ∈ hourlySlots, (tick ∉ slots ↔
        ∃ a ∈ [exAppointment 1 2 "cancelled", exAppointment 2 3 "pending"],
          a.doctor = 1 ∧ a.date = 1000 ∧
          (a.status = "pending" ∨ a.status = "confirmed") ∧ a.time = tick)) ∧
      (∀ tick ∈ hourlySlots,
        (∀ a ∈ [exAppointment 1 2 "cancelled", exAppointment 2 3 "pending"],
          a.doctor = 1 → a.date = 1000 → a.time = tick →
          a.status = "cancelled" ∨ a.status = "completed") → tick ∈ slots) :=
  ⟨⟨rfl, exDoctor, by decide, rfl, rfl, rfl, rfl⟩, by decide,
    availableSlots_omits_iff exDoctor 1 1000
      (Db.mk exUsers [exAppointment 1 2 "cancelled", exAppointment 2 3 "pending"]) rfl
      ⟨exDoctor, by decide, rfl, rfl, rfl, rfl⟩⟩

/-- Claim C18.  After a booking succeeds, the per-doctor listing for the doctor
and the date of the booking, asked by any doctor, returns a list without the
booked time; so does the own listing of the booked doctor. -/
theorem availableSlots_after_booking (user : User) (body : BookingBody) (db db1 : Db)
    (a : Appointment) (caller : User)
    (h : createAppointment user body db = (db1, .ok a)) (hrole : caller.role = "doctor") :
    (∃ slots, availableSlots caller (.ok a.doctor) (some (.ok a.date)) db1 = .ok slots ∧
      a.time ∉ slots) ∧
    (caller._id = a.doctor →
      ∃ slots, ownAvailableSlots caller (some (.ok a.date)) db1 = .ok slots ∧
        a.time ∉ slots) := by
  obtain ⟨_, ⟨u, hu⟩, _, hdb1, hstatus, _⟩ := createAppointment_ok_inv user body db db1 a h
  subst hdb1
  have hu1 : findApprovedDoctor (.ok a.doctor) (Db.mk db.users (db.appointments ++ [a])) =
      .ok (some u) := hu
  refine ⟨⟨_, availableSlots_eq_of_find caller a.doctor a.date _ u hrole hu1, ?_⟩, ?_⟩
  · intro hmem
    have := (List.mem_filter.1 hmem).2
    simp only [Bool.not_eq_true', List.any_eq_false, List.mem_append, List.mem_singleton] at this
    have hocc := this a (Or.inr rfl)
    simp [occupies, hstatus] at hocc
  · intro hown
    refine ⟨_, by simp only [ownAvailableSlots, isDoctor, hrole]; rfl, ?_⟩
    intro hmem
    have := (List.mem_filter.1 hmem).2
    simp only [Appointment.find, Bool.not_eq_true', List.contains_eq_any_beq,
      List.any_eq_false, List.mem_map, List.mem_filter, List.mem_append,
      List.mem_singleton] at this
    have hne := this a.time ⟨a, ⟨Or.inr rfl, by simp [hown, hstatus]⟩, rfl⟩
    simp at hne

/-- Instance of C18: the booking of `exBody` on the store with no
appointment. -/
theorem availableSlots_after_booking_witness :
    (createAppointment exPatient exBody exDb0 =
        (Db.mk exUsers [exAppointment 1 2 "pending"], .ok (exAppointment 1 2 "pending")) ∧
      exDoctor.role = "doctor" ∧ exDoctor._id = (exAppointment 1 2 "pending").doctor) ∧
    availableSlots exDoctor (.ok 1) (some (.ok 1000)) (Db.mk exUsers [exAppointment 1 2 "pending"]) =
      .ok ["10:00", "11:00", "12:00", "13:00", "14:00", "15:00", "16:00"] ∧
    (∃ slots, availableSlots exDoctor (.ok 1) (some (.ok 1000))
        (Db.mk exUsers [exAppointment 1 2 "pending"]) = .ok slots ∧ "09:00" ∉ slots) ∧
    (∃ slots, ownAvailableSlots exDoctor (some (.ok 1000))
        (Db.mk exUsers [exAppointment 1 2 "pending"]) = .ok slots ∧ "09:00" ∉ slots) :=
  ⟨⟨by decide, rfl, rfl⟩, by decide,
    (availableSlots_after_booking exPatient exBody exDb0
      (Db.mk exUsers [exAppointment 1 2 "pending"]) (exAppointment 1 2 "pending") exDoctor
      (by decide) rfl).1,
    (availableSlots_after_booking exPatient exBody exDb0
      (Db.mk exUsers [exAppointment 1 2 "pending"]) (exAppointment 1 2 "pending") exDoctor
      (by decide) rfl).2 rfl⟩

/-- Claim C19.  Whatever appointments are stored, the list returned by the
per-doctor listing and the list returned by the own listing of a doctor are
strictly ascending in minutes since midnight and have no duplicates; and both
listings return a list for a requesting doctor and a valid date (the per-doctor
listing for an approved, active doctor). -/
theorem slot_listings_ascending (user : User) (doctorId : Cast ObjectId)
    (date : Option (Cast Int)) (db : Db) :
    (∀ slots, availableSlots user doctorId date db = .ok slots →
      (slots.map totalMinutes).Pairwise (fun m n => m < n) ∧ slots.Nodup) ∧
    (∀ slots, ownAvailableSlots user date db = .ok slots →
      (slots.map totalMinutes).Pairwise (fun m n => m < n) ∧ slots.Nodup) ∧
    (user.role = "doctor" → ∀ t, ∃ slots, ownAvailableSlots user (some (.ok t)) db = .ok slots) ∧
    (user.role = "doctor" → ∀ d t,
      (∃ u ∈ db.users, u._id = d ∧ u.role = "doctor" ∧ u.verificationStatus = "approved" ∧
        u.isActive = true) →
      ∃ slots, availableSlots user (.ok d) (some (.ok t)) db = .ok slots) := by
  refine ⟨?_, ?_, ?_, ?_⟩
  · intro slots h
    obtain ⟨p, rfl⟩ := availableSlots_subset user doctorId date db slots h
    exact filter_ascending hourlySlots p (by decide)
  · intro slots h
    obtain ⟨p, rfl⟩ := ownAvailableSlots_subset user date db slots h
    exact filter_ascending halfHourSlots p (by decide)
  · intro hrole t
    exact ⟨_, by simp only [ownAvailableSlots, isDoctor, hrole]; rfl⟩
  · intro hrole d t happroved
    exact ⟨_, availableSlots_eq user d t db hrole happroved⟩

/-- Instance of C19: both listings with the slot 09:00 booked. -/
theorem slot_listings_ascending_witness :
    (availableSlots exDoctor (.ok 1) (some (.ok 1000))
        (Db.mk exUsers [exAppointment 1 2 "pending"]) =
      .ok ["10:00", "11:00", "12:00", "13:00", "14:00", "15:00", "16:00"] ∧
      ownAvailableSlots exDoctor (some (.ok 1000)) (Db.mk exUsers [exAppointment 1 2 "pending"]) =
        .ok ["09:30", "10:00", "10:30", "11:00", "11:30", "12:00", "12:30", "13:00", "13:30",
          "14:00", "14:30", "15:00", "15:30", "16:00", "16:30", "17:00"]) ∧
    ((["10:00", "11:00", "12:00", "13:00", "14:00", "15:00", "16:00"].map
        totalMinutes).Pairwise (fun m n => m < n) ∧
      ["10:00", "11:00", "12:00", "13:00", "14:00", "15:00", "16:00"].Nodup) ∧
    ((["09:30", "10:00", "10:30", "11:00", "11:30", "12:00", "12:30", "13:00", "13:30",
        "14:00", "14:30", "15:00", "15:30", "16:00", "16:30", "17:00"].map
        totalMinutes).Pairwise (fun m n => m < n) ∧
      ["09:30", "10:00", "10:30", "11:00", "11:30", "12:00", "12:30", "13:00", "13:30",
        "14:00", "14:30", "15:00", "15:30", "16:00", "16:30", "17:00"].Nodup) :=
  ⟨⟨by decide, by decide⟩,
    (slot_listings_ascending exDoctor (.ok 1) (some (.ok 1000))
      (Db.mk exUsers [exAppointment 1 2 "pending"])).1 _ (by decide),
    (slot_listings_ascending exDoctor (.ok 1) (some (.ok 1000))
      (Db.mk exUsers [exAppointment 1 2 "pending"])).2.1 _ (by decide)⟩

/-- Claim C20.  When a booking request succeeds, the same request submitted
again is rejected with `This time slot is already booked` and leaves the
database as the first request left it, in which the booked appointment is the
only pending or confirmed one of its doctor, date and time. -/
theorem createAppointment_retry_conflict (user : User) (body : BookingBody) (db db1 : Db)
    (a : Appointment) (h : createAppointment user body db = (db1, .ok a)) :
    createAppointment user body db1 =
        (db1, .error (.app "This time slot is already booked" 400)) ∧
      db1.appointments.filter (fun b => b.doctor == a.doctor && b.date == a.date &&
        b.time == a.time && (b.status == "pending" || b.status == "confirmed")) = [a] := by
  obtain ⟨hreq, ⟨u, hu⟩, hfree, hdb1, hstatus, _⟩ :=
    createAppointment_ok_inv user body db db1 a h
  subst hdb1
  have hnone := (findOne_none_iff _ db).1 hfree
  have hocc : occupies a.doctor a.date a.time a = true := by simp [occupies, hstatus]
  have hu1 : findApprovedDoctor (.ok a.doctor) (Db.mk db.users (db.appointments ++ [a])) =
      .ok (some u) := hu
  have hfind : findExistingAppointment (.ok a.doctor) (.ok a.date) a.time
      (Db.mk db.users (db.appointments ++ [a])) = .ok (some a) := by
    simp only [findExistingAppointment, Appointment.findOne, List.find?_append]
    have : db.appointments.find? (occupies a.doctor a.date a.time) = none :=
      List.find?_eq_none.2 (fun b hb => by simp [hnone b hb])
    simp [this, hocc]
  refine ⟨?_, ?_⟩
  · simp only [createAppointment, hreq, hu1, hfind]
  · have hfil : db.appointments.filter (occupies a.doctor a.date a.time) = [] :=
      List.filter_eq_nil_iff.2 (fun b hb => by simp [hnone b hb])
    have : (db.appointments ++ [a]).filter (occupies a.doctor a.date a.time) = [a] := by
      simp [List.filter_append, hfil, hocc]
    exact this

/-- Instance of C20: the booking of `exBody` twice. -/
theorem createAppointment_retry_conflict_witness :
    createAppointment exPatient exBody exDb0 =
        (Db.mk exUsers [exAppointment 1 2 "pending"], .ok (exAppointment 1 2 "pending")) ∧
      createAppointment exPatient exBody (Db.mk exUsers [exAppointment 1 2 "pending"]) =
        (Db.mk exUsers [exAppointment 1 2 "pending"],
          .error (.app "This time slot is already booked" 400)) :=
  ⟨by decide,
    (createAppointment_retry_conflict exPatient exBody exDb0
      (Db.mk exUsers [exAppointment 1 2 "pending"]) (exAppointment 1 2 "pending")
      (by decide)).1⟩

/-- Claim C21 as stated fails: the own listing of a doctor without appointment
returns 17:00, and 17:00 plus 30 minutes is past 17:00. -/
theorem own_listing_ends_at_window_end :
    (∃ slots, ownAvailableSlots exDoctor (some (.ok 1000)) exDb0 = .ok slots ∧
      "17:00" ∈ slots) ∧
      totalMinutes "17:00" = 17 * 60 ∧ ¬ (totalMinutes "17:00" + 30 ≤ 17 * 60) := by
  refine ⟨⟨_, rfl, by decide⟩, by decide, by decide⟩

/-- Claim C21, amended.  Every tick `t` that the own listing of a doctor returns
satisfies 09:00 <= t <= 17:00, and every returned tick other than 17:00
satisfies t + 30 minutes <= 17:00. -/
theorem ownAvailableSlots_window (user : User) (date : Option (Cast Int)) (db : Db)
    (slots : List String) (h : ownAvailableSlots user date db = .ok slots) :
    ∀ t ∈ slots, 9 * 60 ≤ totalMinutes t ∧ totalMinutes t ≤ 17 * 60 ∧
      (t ≠ "17:00" → totalMinutes t + 30 ≤ 17 * 60) := by
  obtain ⟨p, rfl⟩ := ownAvailableSlots_subset user date db slots h
  intro t ht
  have hmem := (List.mem_filter.1 ht).1
  rw [halfHourSlots_eq] at hmem
  simp only [List.mem_cons, List.mem_singleton, List.not_mem_nil, or_false] at hmem
  rcases hmem with rfl | rfl | rfl | rfl | rfl | rfl | rfl | rfl | rfl | rfl | rfl | rfl | rfl |
    rfl | rfl | rfl | rfl <;> decide

/-- Instance of C21 amended: the tick 16:30 of the listing without
appointment. -/
theorem ownAvailableSlots_window_witness :
    ownAvailableSlots exDoctor (some (.ok 1000)) exDb0 = .ok halfHourSlots ∧
      (9 * 60 ≤ totalMinutes "16:30" ∧ totalMinutes "16:30" ≤ 17 * 60 ∧
        ("16:30" ≠ "17:00" → totalMinutes "16:30" + 30 ≤ 17 * 60)) :=
  ⟨by decide,
    ownAvailableSlots_window exDoctor (some (.ok 1000)) exDb0 halfHourSlots (by decide)
      "16:30" (by decide)⟩

/-- Claim C22 as stated fails: both availability updates accept a template with
two entries for Monday. -/
theorem duplicate_weekday_accepted :
    (updateAvailability exDoctor
        (some [exSlot "monday" "09:00" "12:00", exSlot "monday" "13:00" "17:00"]) exDb0).2 =
      .ok [AvailabilityEntry.mk "monday" "09:00" "12:00" true [],
        AvailabilityEntry.mk "monday" "13:00" "17:00" true []] ∧
    (updateDoctorAvailability exDoctor
        (some [exSlot "monday" "09:00" "12:00", exSlot "monday" "13:00" "17:00"]) exDb0).2 =
      .ok [AvailabilityEntry.mk "monday" "09:00" "12:00" true [],
        AvailabilityEntry.mk "monday" "13:00" "17:00" true []] ∧
    ¬ ([AvailabilityEntry.mk "monday" "09:00" "12:00" true [],
        AvailabilityEntry.mk "monday" "13:00" "17:00" true []].map (fun e => e.day)).Nodup := by
  decide

/-- Claim C22, amended.  In a template that an availability update accepts (the
update of the doctor router and the update of the appointment router) every
weekday is one of the seven weekday names, and the template is then the
availability of the requesting doctor. -/
theorem accepted_days_valid (user : User) (availability : Option (List AvailabilitySlot))
    (db db1 : Db) (tpl : List AvailabilityEntry) :
    (updateAvailability user availability db = (db1, .ok tpl) →
      (∀ e ∈ tpl, e.day ∈ validDays) ∧
      ∀ u ∈ db1.users, u._id = user._id → u.availability = tpl) ∧
    (updateDoctorAvailability user availability db = (db1, .ok tpl) →
      (∀ e ∈ tpl, e.day ∈ validDays) ∧
      ∀ u ∈ db1.users, u._id = user._id → u.availability = tpl) := by
  have key : ∀ slots, User.updateAvailability user._id slots db = (db1, .ok tpl) →
      (∀ e ∈ tpl, e.day ∈ validDays) ∧
      ∀ u ∈ db1.users, u._id = user._id → u.availability = tpl := by
    intro slots h
    obtain ⟨hall, rfl⟩ := updateAvailability_ok _ _ _ _ _ h
    refine ⟨?_, ?_⟩
    · intro e he
      obtain ⟨slot, hs, rfl⟩ := List.mem_map.1 he
      exact validate_day slot (List.all_eq_true.1 hall slot hs)
    · unfold User.updateAvailability at h
      simp only [hall, Bool.not_true, Bool.false_eq_true, if_false] at h
      split at h
      · simp at h
      · simp only [Prod.mk.injEq, Except.ok.injEq, and_true] at h
        subst h
        intro u hu hid
        obtain ⟨v, _, rfl⟩ := List.mem_map.1 hu
        by_cases hv : v._id = user._id
        · simp [hv]
        · simp only [beq_iff_eq, hv, if_false] at hid
  refine ⟨?_, ?_⟩
  · intro h
    unfold updateAvailability at h
    split at h
    · simp at h
    · split at h
      · simp at h
      · split at h
        · simp at h
        · exact key _ h
  · intro h
    unfold updateDoctorAvailability at h
    split at h
    · simp at h
    · split at h
      · simp at h
      · split at h
        · simp at h
        · exact key _ h

/-- Instance of C22 amended: a template with one Monday entry. -/
theorem accepted_days_valid_witness :
    (updateAvailability exDoctor (some [exSlot "monday" "09:00" "12:00"]) exDb0).2 =
        .ok [AvailabilityEntry.mk "monday" "09:00" "12:00" true []] ∧
      ∀ e ∈ [AvailabilityEntry.mk "monday" "09:00" "12:00" true []], e.day ∈ validDays :=
  ⟨by decide,
    ((accepted_days_valid exDoctor (some [exSlot "monday" "09:00" "12:00"]) exDb0
      (updateAvailability exDoctor (some [exSlot "monday" "09:00" "12:00"]) exDb0).1
      [AvailabilityEntry.mk "monday" "09:00" "12:00" true []]).1 (by decide)).1⟩

/-- Claim C23 fails on the code.  The update of the doctor router accepts and
stores an entry from 12:00 to 09:00, which the update of the appointment router
rejects with `End time must be after start time`. -/
theorem end_before_start_accepted :
    totalMinutes "09:00" < totalMinutes "12:00" ∧
    (updateAvailability exDoctor (some [exSlot "monday" "12:00" "09:00"]) exDb0).2 =
      .ok [AvailabilityEntry.mk "monday" "12:00" "09:00" true []] ∧
    (updateAvailability exDoctor (some [exSlot "monday" "12:00" "09:00"]) exDb0).1.users =
      [User.mk 1 "doctor" "approved" true [AvailabilityEntry.mk "monday" "12:00" "09:00" true []],
        exPatient, exOtherPatient] ∧
    updateDoctorAvailability exDoctor (some [exSlot "monday" "12:00" "09:00"]) exDb0 =
      (exDb0, .error (.app "End time must be after start time" 400)) := by
  decide

/-- Claim C24.  A string that the time pattern accepts is a digit or two digits,
a colon and two digits, and the hours and minutes read from it by splitting at
the colon satisfy hours <= 23, minutes <= 59 and hours * 60 + minutes <= 1439;
and for every hour <= 23 and minute <= 59 the zero-padded string `HH:MM` is
accepted and is read back as that hour and minute. -/
theorem timeRegex_spec :
    (∀ s, timeRegex s = true →
      ((∃ h m1 m2, s.data = [h, ':', m1, m2] ∧ h.isDigit = true ∧ m1.isDigit = true ∧
          m2.isDigit = true) ∨
        (∃ h1 h2 m1 m2, s.data = [h1, h2, ':', m1, m2] ∧ h1.isDigit = true ∧
          h2.isDigit = true ∧ m1.isDigit = true ∧ m2.isDigit = true)) ∧
      (splitTime s).1 ≤ 23 ∧ (splitTime s).2 ≤ 59 ∧
      (splitTime s).1 * 60 + (splitTime s).2 ≤ 1439) ∧
    (∀ hour minute, hour ≤ 23 → minute ≤ 59 →
      timeRegex (padStart (toString hour) 2 '0' ++ ":" ++ padStart (toString minute) 2 '0') =
        true ∧
      splitTime (padStart (toString hour) 2 '0' ++ ":" ++ padStart (toString minute) 2 '0') =
        (hour, minute)) := by
  refine ⟨?_, ?_⟩
  · intro s h
    have hb := timeRegex_bounds s h
    refine ⟨?_, hb.1, hb.2, by omega⟩
    rcases timeRegexChars_form s.data h with ⟨c, m1, m2, hs, hc, hm1, hm2⟩ |
      ⟨c1, c2, m1, m2, hs, hh, hm1, hm2⟩
    · exact Or.inl ⟨c, m1, m2, hs, hc, digit_of_range m1 hm1, hm2⟩
    · refine Or.inr ⟨c1, c2, m1, m2, hs, ?_, ?_, digit_of_range m1 hm1, hm2⟩
      · rcases hh with ⟨h1 | h1, _⟩ | ⟨h1, _⟩ <;> rw [h1] <;> decide
      · rcases hh with ⟨_, h2⟩ | ⟨_, h2⟩
        · exact h2
        · have a1 := char_le_toNat _ _ h2.1
          have a2 := char_le_toNat _ _ h2.2
          have e0 : '0'.toNat = 48 := rfl
          have e3 : '3'.toNat = 51 := rfl
          rw [e0] at a1
          rw [e3] at a2
          simp only [Char.isDigit, Bool.and_eq_true, decide_eq_true_eq]
          exact ⟨a1, by
            have : c2.toNat ≤ 57 := by omega
            exact this⟩
  · intro hour minute hh hm
    exact padded_times_accepted_aux hour (by omega) minute (by omega)

/-- Instance of C24: the string `9:05` and the padded string of 23:59. -/
theorem timeRegex_spec_witness :
    timeRegex "9:05" = true ∧
      (((∃ h m1 m2, "9:05".data = [h, ':', m1, m2] ∧ h.isDigit = true ∧ m1.isDigit = true ∧
          m2.isDigit = true) ∨
        (∃ h1 h2 m1 m2, "9:05".data = [h1, h2, ':', m1, m2] ∧ h1.isDigit = true ∧
          h2.isDigit = true ∧ m1.isDigit = true ∧ m2.isDigit = true)) ∧
      (splitTime "9:05").1 ≤ 23 ∧ (splitTime "9:05").2 ≤ 59 ∧
      (splitTime "9:05").1 * 60 + (splitTime "9:05").2 ≤ 1439) ∧
      (timeRegex (padStart (toString 23) 2 '0' ++ ":" ++ padStart (toString 59) 2 '0') = true ∧
        splitTime (padStart (toString 23) 2 '0' ++ ":" ++ padStart (toString 59) 2 '0') =
          (23, 59)) :=
  ⟨by decide, timeRegex_spec.1 "9:05" (by decide),
    timeRegex_spec.2 23 59 (by decide) (by decide)⟩

/-- Claim C25 fails on the code.  A patient who asks the per-doctor listing for
an approved, active doctor and a date is refused by `isDoctor` with status 403:
the route is registered after `router.use(protect)` and
`router.use(isDoctor)`. -/
theorem patient_refused_slot_listing :
    (∃ u ∈ exDb0.users, u._id = 1 ∧ u.role = "doctor" ∧ u.verificationStatus = "approved" ∧
      u.isActive = true) ∧
    availableSlots exPatient (.ok 1) (some (.ok 1000)) exDb0 =
      .error (.app "Only doctors can access this route" 403) := by
  refine ⟨⟨exDoctor, by decide, rfl, rfl, rfl, rfl⟩, by decide⟩

/-- Claim C26 fails on the code.  The registration request of the test
`should not register a user with existing email` is rejected with status 400
and creates no user, but with the message `Email already in use`, not
`Email already exists`. -/
theorem duplicate_email_message :
    register asciiLower
        { name := some "Test User", email := some "test@example.com",
          password := some "Test123!@#", role := some "patient" }
        [Account.mk 1 "Existing User" "test@example.com" "patient"] =
      ([Account.mk 1 "Existing User" "test@example.com" "patient"],
        .error (.app "Email already in use" 400)) ∧
    "Email already in use" ≠ "Email already exists" := by
  decide

/-- Claim C27 as stated fails: after the booking of 09:00 a request for the same
doctor and date with the time `9:00`, the same minutes since midnight, is
accepted, and both appointments are pending. -/
theorem same_minutes_double_booking :
    exBody.time = some "09:00" ∧
    run [.book exPatient exBody, .book exOtherPatient (exBodyAt "9:00")] exDb0 =
      Db.mk exUsers [exAppointment 1 2 "pending",
        Appointment.mk 2 3 1 1000 "9:00" "flu" "pending" "online" none none] ∧
    totalMinutes "9:00" = totalMinutes "09:00" := by
  decide

/-- Claim C27, amended.  When a booking is accepted, then after any sequence of
further booking requests a request with the required fields for the same
doctor, the same date and the identical time string is rejected with
`This time slot is already booked` and leaves the database as it was. -/
theorem createAppointment_same_string_conflict (user : User) (body : BookingBody) (db db1 : Db)
    (a : Appointment) (reqs : List (User × BookingBody)) (user2 : User) (body2 : BookingBody)
    (reason type : String)
    (h : createAppointment user body db = (db1, .ok a))
    (hdoctor : body2.doctor = some (.ok a.doctor)) (hdate : body2.date = some (.ok a.date))
    (htime : body2.time = some a.time) (hreason : body2.reason = some reason)
    (htype : body2.type = some type) (htruthy : reason ≠ "" ∧ type ≠ "") :
    createAppointment user2 body2 (run (reqs.map (fun r => Op.book r.1 r.2)) db1) =
      (run (reqs.map (fun r => Op.book r.1 r.2)) db1,
        .error (.app "This time slot is already booked" 400)) := by
  obtain ⟨hreq, ⟨u, hu⟩, _, hdb1, hstatus, _⟩ := createAppointment_ok_inv user body db db1 a h
  have htime1 : a.time ≠ "" := (requiredFields_truthy body _ _ _ _ _ hreq).1
  obtain ⟨husers, hkeep⟩ := bookings_keep reqs db1
  have hmem : a ∈ (run (reqs.map (fun r => Op.book r.1 r.2)) db1).appointments := by
    apply hkeep
    rw [hdb1]
    exact List.mem_append_right _ (List.mem_singleton.2 rfl)
  have hreq2 : requiredFields body2 = some (.ok a.doctor, .ok a.date, a.time, reason, type) := by
    simp [requiredFields, hdoctor, hdate, htime, hreason, htype, truthy, htruthy, htime1]
  have hu2 : findApprovedDoctor (.ok a.doctor) (run (reqs.map (fun r => Op.book r.1 r.2)) db1) =
      .ok (some u) := by
    have : db1.users = db.users := by rw [hdb1]
    simp only [findApprovedDoctor, husers, this] at hu ⊢
    exact hu
  have hocc : occupies a.doctor a.date a.time a = true := by simp [occupies, hstatus]
  have hfind : ∃ b, findExistingAppointment (.ok a.doctor) (.ok a.date) a.time
      (run (reqs.map (fun r => Op.book r.1 r.2)) db1) = .ok (some b) := by
    simp only [findExistingAppointment, Appointment.findOne]
    cases hf : (run (reqs.map (fun r => Op.book r.1 r.2)) db1).appointments.find?
        (occupies a.doctor a.date a.time) with
    | some b => exact ⟨b, rfl⟩
    | none =>
      have := List.find?_eq_none.1 hf a hmem
      exact absurd hocc this
  obtain ⟨b, hb⟩ := hfind
  simp only [createAppointment, hreq2, hu2, hb]

/-- Instance of C27 amended: a third request for the slot of `exBody`. -/
theorem createAppointment_same_string_conflict_witness :
    (createAppointment exPatient exBody exDb0 =
        (Db.mk exUsers [exAppointment 1 2 "pending"], .ok (exAppointment 1 2 "pending")) ∧
      exBody.doctor = some (.ok (exAppointment 1 2 "pending").doctor) ∧
      exBody.date = some (.ok (exAppointment 1 2 "pending").date) ∧
      exBody.time = some (exAppointment 1 2 "pending").time ∧
      exBody.reason = some "flu" ∧ exBody.type = some "online" ∧ "flu" ≠ "" ∧ "online" ≠ "") ∧
    createAppointment exOtherPatient exBody
        (run ([(exOtherPatient, exBody)].map (fun r => Op.book r.1 r.2))
          (Db.mk exUsers [exAppointment 1 2 "pending"])) =
      (run ([(exOtherPatient, exBody)].map (fun r => Op.book r.1 r.2))
          (Db.mk exUsers [exAppointment 1 2 "pending"]),
        .error (.app "This time slot is already booked" 400)) :=
  ⟨⟨by decide, rfl, rfl, rfl, rfl, rfl, by decide, by decide⟩,
    createAppointment_same_string_conflict exPatient exBody exDb0
      (Db.mk exUsers [exAppointment 1 2 "pending"]) (exAppointment 1 2 "pending")
      [(exOtherPatient, exBody)] exOtherPatient exBody "flu" "online" (by decide)
      rfl rfl rfl rfl rfl ⟨by decide, by decide⟩⟩

/-- Claim C28.  For a stored appointment and an actor whose role is one of the
three roles of the user schema, who is not an admin and is neither the doctor
nor the patient of the appointment, the status update, the patient cancel, the
general update and the update of the doctor router are rejected, whatever the
request holds, and leave the database as it was. -/
theorem stranger_rejected (user : User) (db : Db) (a : Appointment)
    (hnodup : (db.appointments.map (fun b => b._id)).Nodup) (hmem : a ∈ db.appointments)
    (hrole : user.role ∈ ["admin", "doctor", "patient"]) (hadmin : user.role ≠ "admin")
    (hdoctor : a.doctor ≠ user._id) (hpatient : a.patient ≠ user._id) :
    (∀ requested, updateAppointmentStatus user (.ok a._id) requested db =
      (db, .error (.app "Not authorized to update this appointment" 403))) ∧
    ((cancelAppointment user (.ok a._id) db).1 = db ∧
      ∃ e, (cancelAppointment user (.ok a._id) db).2 = .error e) ∧
    (∀ body today notification, updateAppointment user (.ok a._id) body today notification db =
      (db, .error (.app "You are not authorized to update this appointment" 403))) ∧
    (∀ status, (doctorUpdateAppointment user (.ok a._id) status db).1 = db ∧
      ∃ e, (doctorUpdateAppointment user (.ok a._id) status db).2 = .error e) := by
  have hfind := findById_of_mem a db hnodup hmem
  have hrole2 : user.role = "doctor" ∨ user.role = "patient" := by
    simp only [List.mem_cons, List.mem_singleton, List.not_mem_nil, or_false] at hrole
    rcases hrole with h | h | h
    · exact absurd h hadmin
    · exact Or.inl h
    · exact Or.inr h
  refine ⟨?_, ?_, ?_, ?_⟩
  · intro requested
    rcases hrole2 with h | h <;> simp [updateAppointmentStatus, hfind, h, hdoctor, hpatient]
  · rcases hrole2 with h | h
    · simp [cancelAppointment, isPatient, h]
    · have hnone : Appointment.findOne (fun b => b._id == a._id && b.patient == user._id) db
          = none := by
        unfold Appointment.findOne
        apply find_none_of_nodup _ a _ hnodup hmem
        · simp [hpatient]
        · intro b hb
          simp only [Bool.and_eq_true, beq_iff_eq] at hb
          exact hb.1
      simp [cancelAppointment, isPatient, h, hnone]
  · intro body today notification
    simp [updateAppointment, hfind, hadmin, hdoctor, hpatient]
  · intro status
    rcases hrole2 with h | h
    · have hnone : Appointment.findOne (fun b => b._id == a._id && b.doctor == user._id) db
          = none := by
        unfold Appointment.findOne
        apply find_none_of_nodup _ a _ hnodup hmem
        · simp [hdoctor]
        · intro b hb
          simp only [Bool.and_eq_true, beq_iff_eq] at hb
          exact hb.1
      simp [doctorUpdateAppointment, isDoctor, h, hnone]
    · simp [doctorUpdateAppointment, isDoctor, h]

/-- Instance of C28: another patient sends a general update. -/
theorem stranger_rejected_witness :
    (([exAppointment 1 2 "pending"].map (fun b => b._id)).Nodup ∧
      exAppointment 1 2 "pending" ∈ [exAppointment 1 2 "pending"] ∧
      exOtherPatient.role ∈ ["admin", "doctor", "patient"] ∧ exOtherPatient.role ≠ "admin" ∧
      (exAppointment 1 2 "pending").doctor ≠ exOtherPatient._id ∧
      (exAppointment 1 2 "pending").patient ≠ exOtherPatient._id) ∧
    updateAppointment exOtherPatient (.ok 1) (exStatusOnly "completed") 0 (.ok ())
        (Db.mk exUsers [exAppointment 1 2 "pending"]) =
      (Db.mk exUsers [exAppointment 1 2 "pending"],
        .error (.app "You are not authorized to update this appointment" 403)) :=
  ⟨⟨by decide, by decide, by decide, by decide, by decide, by decide⟩,
    (stranger_rejected exOtherPatient (Db.mk exUsers [exAppointment 1 2 "pending"])
      (exAppointment 1 2 "pending") (by decide) (by decide) (by decide) (by decide)
      (by decide) (by decide)).2.2.1 (exStatusOnly "completed") 0 (.ok ())⟩

/-- Claim C29 fails on the code.  The update of the doctor router stores the
status `scheduled`, which is not a key of `validTransitions`; a status update
of that appointment then throws a `TypeError` at the lookup. -/
theorem off_enum_status_crashes_update :
    run [.book exPatient exBody, .doctorUpdate exDoctor (.ok 1) (some "scheduled")] exDb0 =
      Db.mk exUsers [exAppointment 1 2 "scheduled"] ∧
    updateAppointmentStatus exDoctor (.ok 1) (some "confirmed")
        (Db.mk exUsers [exAppointment 1 2 "scheduled"]) =
      (Db.mk exUsers [exAppointment 1 2 "scheduled"], .error .typeError) := by
  decide

/-- Claim C30 fails on the code.  No type of `validTypes` is in the enum of the
model.  The type `consultation` passes `validateAppointmentData` and the general
update is then rejected by the validators of the model; a booking request with
that type, the one the booking page sends, is rejected by the model as well. -/
theorem validated_type_rejected_by_model :
    (∀ t ∈ validTypes, t ∉ typeEnum) ∧
    validateAppointmentData
        { date := none, startTime := none, endTime := none, type := some "consultation",
          notes := none, symptoms := none, status := none, priority := none } true 0 = none ∧
    updateAppointment exPatient (.ok 1)
        { date := none, startTime := none, endTime := none, type := some "consultation",
          notes := none, symptoms := none, status := none, priority := none } 0 (.ok ())
        (Db.mk exUsers [exAppointment 1 2 "pending"]) =
      (Db.mk exUsers [exAppointment 1 2 "pending"], .error .validationError) ∧
    createAppointment exPatient
        { doctor := some (.ok 1), date := some (.ok 1000), time := some "09:00",
          reason := some "flu", type := some "consultation" } exDb0 =
      (exDb0, .error .validationError) := by
  decide

end HealthTech
